import Mathlib

/-!
Verification of the sel4 element resolution and wait/retry engine.

This file embeds, as executable Lean definitions, the parts of the Python
source that the checked properties are about:

* `sel4/core/helpers__/shared.py` — `check_if_time_limit_exceeded`;
* `sel4/core/helpers__/element_actions.py` — the polling waits
  (`wait_for_element_present`, `wait_for_element_visible`,
  `wait_for_element_not_visible`) and the per-probe classification bodies of
  `wait_for_element_interactable` / `wait_for_element_disabled`;
* `sel4/core/shadow.py` — the shadow-chain validation prefix of
  `get_shadow_element` and `_fail_if_invalid_shadow_selector_usage`;
* `sel4/utils/retries.py` — `__retry_internal` / `retry_call`;
* `sel4/core/helpers__/translator.py` — `convert_xpath_to_css` with its
  pre-passes and the node-at-a-time regex translator
  `_get_raw_css_from_xpath`.

Remote effects (WebDriver calls, wall-clock reads, sleeps) are modelled by
explicit oracles: a probe function `Nat → _` gives the outcome of the n-th
remote probe, and a trace `Nat → IterTimes` gives the two clock reads each
loop iteration performs (one at the deadline check, one after the probe).
Machine floats that the source uses only as millisecond counters are
modelled as `Nat`; the retry wrapper's delay arithmetic is modelled as `ℚ`.
-/

set_option maxRecDepth 8000

namespace Sel4

/-! ## Python string primitives (on `List Char`)

The translator and the shadow validation manipulate Python `str` values with
`in`, `count`, `replace`, `split`, `find`, `rfind`, `startswith`, `endswith`,
slicing and `strip`.  These are reimplemented here on `List Char` with the
same semantics (left-to-right, non-overlapping matches). -/

/-- Whether `pat` is an initial run of `s` (Python `s.startswith(pat)`). -/
def leadsWith : List Char → List Char → Bool
  | [], _ => true
  | _ :: _, [] => false
  | p :: ps, c :: cs => p == c && leadsWith ps cs

/-- Index of the leftmost occurrence of `pat` in `s` (Python `s.find(pat)`,
with `none` for -1). -/
def findSub (pat : List Char) : List Char → Option Nat
  | [] => if pat = [] then some 0 else none
  | c :: cs => if leadsWith pat (c :: cs) then some 0 else (findSub pat cs).map (· + 1)

/-- Python `pat in s`. -/
def containsSub (s pat : List Char) : Bool := (findSub pat s).isSome

/-- Python `s.find(pat, start)`. -/
def findSubFrom (s pat : List Char) (start : Nat) : Option Nat :=
  (findSub pat (s.drop start)).map (· + start)

/-- Index of the rightmost occurrence of `pat` in `s` (Python `s.rfind`).
Scans all positions and keeps the last hit. -/
def rfindSub (s pat : List Char) : Option Nat :=
  (List.range (s.length + 1)).foldl
    (fun acc i => if leadsWith pat (s.drop i) then some i else acc) none

/-- Non-overlapping count of a nonempty pattern `p :: ps` in `s`
(Python `s.count`).  The fuel argument (initialised to the text's length,
which bounds the number of scanning steps) keeps the recursion structural,
so the definition evaluates by kernel reduction. -/
def countSub (p : Char) (ps : List Char) : Nat → List Char → Nat
  | 0, _ => 0
  | _, [] => 0
  | fuel + 1, c :: cs =>
    if leadsWith (p :: ps) (c :: cs) then countSub p ps fuel (cs.drop ps.length) + 1
    else countSub p ps fuel cs

/-- Python `s.count(pat)` (an empty pattern counts every gap). -/
def pyCount (s pat : List Char) : Nat :=
  match pat with
  | [] => s.length + 1
  | p :: ps => countSub p ps s.length s

/-- Replace every non-overlapping occurrence of the nonempty pattern
`p :: ps` by `r`, scanning left to right (Python `s.replace`).  Fuel as in
`countSub`. -/
def replaceSub (p : Char) (ps : List Char) (r : List Char) :
    Nat → List Char → List Char
  | 0, l => l
  | _, [] => []
  | fuel + 1, c :: cs =>
    if leadsWith (p :: ps) (c :: cs) then r ++ replaceSub p ps r fuel (cs.drop ps.length)
    else c :: replaceSub p ps r fuel cs

/-- Python `s.replace(pat, r)`. -/
def pyReplace (s pat r : List Char) : List Char :=
  match pat with
  | [] => s
  | p :: ps => replaceSub p ps r s.length s

/-- Split on every non-overlapping occurrence of the nonempty pattern
`p :: ps` (Python `s.split(pat)`): empty pieces are kept.  Fuel as in
`countSub`. -/
def splitSub (p : Char) (ps : List Char) : Nat → List Char → List (List Char)
  | 0, l => [l]
  | _, [] => [[]]
  | fuel + 1, c :: cs =>
    if leadsWith (p :: ps) (c :: cs) then [] :: splitSub p ps fuel (cs.drop ps.length)
    else
      match splitSub p ps fuel cs with
      | [] => [[c]]
      | h :: t => (c :: h) :: t

/-- Python `s.split(pat)` for a nonempty pattern. -/
def pySplit (s pat : List Char) : List (List Char) :=
  match pat with
  | [] => [s]
  | p :: ps => splitSub p ps s.length s

/-- Python `s.endswith(pat)`. -/
def pyEndsWith (s pat : List Char) : Bool :=
  decide (pat.length ≤ s.length) && leadsWith pat (s.drop (s.length - pat.length))

/-- Python whitespace for `str.strip` and the regex class `\s` (ASCII). -/
def isSpaceChar (c : Char) : Bool :=
  c == ' ' || c == '\t' || c == '\n' || c == '\x0d' || c == '\x0c' || c == '\x0b'

/-- Python `s.strip()`. -/
def pyStrip (s : List Char) : List Char :=
  ((s.dropWhile isSpaceChar).reverse.dropWhile isSpaceChar).reverse

/-! ## Deadline store and `check_if_time_limit_exceeded`

`sel4/core/helpers__/shared.py` lines 202-219.  The runtime store holds an
optional test-wide time limit (seconds, stored here directly as
milliseconds) and the test's start time.  Python's
`if runtime_store.get(time_limit, None):` is falsy both for a missing limit
and for a limit of 0, hence the explicit `timeLimitMs = 0` case. -/

structure Deadline where
  startTimeMs : Nat
  timeLimitMs : Nat
deriving DecidableEq, Repr

/-- One loop iteration's deadline check: `true` means the expiry branch of
shared.py lines 210-219 is entered (what that branch then raises is
`deadline_expiry_raise` below).  Mirrors
`now_ms > _start_time_ms + time_limit_ms`, computed from the stored
values. -/
def check_if_time_limit_exceeded (store : Option Deadline) (nowMs : Nat) : Bool :=
  match store with
  | none => false
  | some d =>
    if d.timeLimitMs = 0 then false
    else decide (nowMs > d.startTimeMs + d.timeLimitMs)

/-- The exception an entered expiry branch raises. -/
inductive DeadlineRaise where
  | typeError
  | timeLimitExceeded (message : String)
deriving DecidableEq, Repr

/-- The two Python values named `time_limit` around the expiry branch: the
module-level name imported at shared.py line 203 is the `StashKey` object
used to index the runtime store, while the stored number was read into the
separate local `_time_limit` at line 205. -/
inductive TimeLimitVal where
  | stashKey
  | storedSeconds (n : Nat)
deriving DecidableEq, Repr

/-- Python `int(v)` on such a value: a `StashKey` defines none of
`__int__`, `__index__` or `__trunc__`, so `int` raises `TypeError`; a
stored number converts. -/
def pyIntTL : TimeLimitVal → Except Unit Nat
  | .stashKey => .error ()
  | .storedSeconds n => .ok n

/-- The expiry branch of `check_if_time_limit_exceeded` (shared.py lines
210-219), entered when the check fires.  Line 211 binds
`display_time_limit = time_limit` — the imported `StashKey`, not the stored
`_time_limit` — and line 213 evaluates `float(int(time_limit))`, again on
the key.  `int` of the `StashKey` raises `TypeError` there, so the branch
always raises `TypeError` and the
`raise TimeLimitExceededException(message)` of line 219 is unreachable. -/
def deadline_expiry_raise : DeadlineRaise :=
  match pyIntTL .stashKey with
  | .error _ => .typeError
  | .ok n =>
    .timeLimitExceeded ("\n This test has exceeded the time limit of "
      ++ toString n ++ " seconds!")

/-! ## The polling wait loops

Each wait in `element_actions.py` has the shape

    start_ms = now; stop_ms = start_ms + timeout * 1000
    for x in range(int(timeout * 10)):
        check_if_time_limit_exceeded()        -- clock read 1 (tCheck)
        try: probe ...
        except SoftFail:
            now_ms = now                      -- clock read 2 (tNow)
            if now_ms >= stop_ms: break
            state_message(...)                -- sleeps timeout * 0.2 s
    raise TimeoutException(...)

The two clock reads of iteration `x` are supplied by `times x`; the probe
outcome of iteration `x` by a probe oracle. -/

structure IterTimes where
  tCheck : Nat
  tNow : Nat
deriving DecidableEq, Repr

/-- Outcome of a presence wait; every constructor carries the number of
`driver.find_element` probes that were performed. -/
inductive PresentOutcome where
  | satisfied (probes : Nat)
  | timedOut (probes : Nat)
  | deadlineRaised (probes : Nat)
deriving DecidableEq, Repr

def PresentOutcome.probes : PresentOutcome → Nat
  | .satisfied p => p
  | .timedOut p => p
  | .deadlineRaised p => p

def PresentOutcome.isDeadlineRaised : PresentOutcome → Bool
  | .deadlineRaised _ => true
  | _ => false

def PresentOutcome.isTimedOut : PresentOutcome → Bool
  | .timedOut _ => true
  | _ => false

/-- The `for x in range(int(timeout * 10))` loop of
`wait_for_element_present` (element_actions.py lines 106-115): `r` is the
number of loop iterations left, `x` the current iteration index.  Falling
off the range, or breaking on `now_ms >= stop_ms`, reaches the final
`raise TimeoutException`; the deadline check raising out of the wait (the
`TypeError` of `deadline_expiry_raise`) is `deadlineRaised`. -/
def wait_present_loop (dl : Option Deadline) (found : Nat → Bool)
    (times : Nat → IterTimes) (stopMs : Nat) : Nat → Nat → PresentOutcome
  | 0, x => .timedOut x
  | r + 1, x =>
    if check_if_time_limit_exceeded dl (times x).tCheck then .deadlineRaised x
    else if found x then .satisfied (x + 1)
    else if (times x).tNow ≥ stopMs then .timedOut (x + 1)
    else wait_present_loop dl found times stopMs r (x + 1)

/-- `wait_for_element_present(driver, how, selector, timeout)` with the
remote session abstracted to the `found` probe oracle.  `timeout` is the
integer timeout in seconds (`OptionalInt`), `startMs` the value of
`time.time() * 1000` on entry. -/
def wait_for_element_present (dl : Option Deadline) (found : Nat → Bool)
    (times : Nat → IterTimes) (timeout startMs : Nat) : PresentOutcome :=
  wait_present_loop dl found times (startMs + timeout * 1000) (timeout * 10) 0

/-! ## `wait_for_element_visible` (element_actions.py lines 163-231)

Per iteration, `driver.find_element` either raises `NoSuchElementException`
(the element is absent), or returns an element; then `is_present = True` is
set and `webelement.is_displayed()` either returns `True` (satisfied),
returns `False` (`ElementNotVisibleException` is raised and caught), or
raises `StaleElementReferenceException` (which also sets `is_stale`).  On
exhaustion the diagnostic is chosen from the `is_present` / `is_stale`
flags. -/

inductive VisibleProbe where
  /-- `find_element` raises `NoSuchElementException`. -/
  | absent
  /-- `find_element` returns, `is_displayed()` raises
  `StaleElementReferenceException`. -/
  | staleOnCheck
  /-- `find_element` returns, `is_displayed()` returns `False`. -/
  | hiddenFound
  /-- `find_element` returns, `is_displayed()` returns `True`. -/
  | visibleFound
deriving DecidableEq, Repr

/-- Python `second{"s" if timeout == 1 else ""}` as written in the source
(the plural is inverted there; reproduced faithfully). -/
def secondSuffix (timeout : Nat) : String :=
  if timeout = 1 then "s" else ""

/-- The three `raise TimeoutException` messages after the visible-wait loop
(element_actions.py lines 212-231), selected from the flags exactly as the
source does: the `not is_present` branch (lines 213-216) builds the message
with the words "was still present", the `is_stale` branch the stale wording,
and the final branch the hidden wording.  The stray quote after `path` in
the stale and hidden f-strings is reproduced. -/
def visible_timeout_message (how selector path : String) (timeout : Nat)
    (isPresent isStale : Bool) : String :=
  if !isPresent then
    "Element " ++ how ++ "=\"" ++ selector ++ "\" on " ++ path ++
      "\n\twas still present after " ++ toString timeout ++ " second" ++
      secondSuffix timeout ++ "!"
  else if isStale then
    "Element " ++ how ++ "=\"" ++ selector ++ "\" on " ++ path ++ "\"" ++
      "\n\twas not present on DOM (stale) after " ++ toString timeout ++ " second" ++
      secondSuffix timeout ++ "!"
  else
    "Element " ++ how ++ "=\"" ++ selector ++ "\" on " ++ path ++ "\"" ++
      "\n\twas hidden after " ++ toString timeout ++ " second" ++
      secondSuffix timeout ++ "!"

inductive VisibleOutcome where
  | satisfied (probes : Nat)
  | timedOut (message : String)
  | deadlineRaised (probes : Nat)
deriving DecidableEq, Repr

/-- The polling loop of `wait_for_element_visible`, carrying the
`is_present` / `is_stale` flags. -/
def wait_visible_loop (dl : Option Deadline) (probe : Nat → VisibleProbe)
    (times : Nat → IterTimes) (stopMs : Nat) (how selector path : String)
    (timeout : Nat) : Nat → Nat → Bool → Bool → VisibleOutcome
  | 0, _, isP, isS => .timedOut (visible_timeout_message how selector path timeout isP isS)
  | r + 1, x, isP, isS =>
    if check_if_time_limit_exceeded dl (times x).tCheck then .deadlineRaised x
    else
      match probe x with
      | .visibleFound => .satisfied (x + 1)
      | .absent =>
        if (times x).tNow ≥ stopMs then
          .timedOut (visible_timeout_message how selector path timeout isP isS)
        else wait_visible_loop dl probe times stopMs how selector path timeout r (x + 1) isP isS
      | .staleOnCheck =>
        if (times x).tNow ≥ stopMs then
          .timedOut (visible_timeout_message how selector path timeout true true)
        else wait_visible_loop dl probe times stopMs how selector path timeout r (x + 1) true true
      | .hiddenFound =>
        if (times x).tNow ≥ stopMs then
          .timedOut (visible_timeout_message how selector path timeout true isS)
        else wait_visible_loop dl probe times stopMs how selector path timeout r (x + 1) true isS

def wait_for_element_visible (dl : Option Deadline) (probe : Nat → VisibleProbe)
    (times : Nat → IterTimes) (timeout startMs : Nat)
    (how selector path : String) : VisibleOutcome :=
  wait_visible_loop dl probe times (startMs + timeout * 1000) how selector path timeout
    (timeout * 10) 0 false false

/-! ## `wait_for_element_not_visible` (element_actions.py lines 234-272)

The probe body: `find_element`; if the element is found and `is_displayed()`
then keep waiting ("still visible"), otherwise `return True` (line 264).
An absent element (`find_element` raises `NoSuchElementException`) or a
stale one (`is_displayed` raises `StaleElementReferenceException`) sends the
exception to the handler of line 265,
`except NoSuchElementException | StaleElementReferenceException:` — but the
`|` between two exception classes builds a `types.UnionType`, which is not a
legal exception pattern, so matching the in-flight exception against the
clause itself raises `TypeError` and the `return True` of line 266 is
unreachable. -/

inductive ProbeVerdict where
  | satisfiedNow
  | keepWaiting
  /-- the union `except` clause raises `TypeError` at match time; the
  `TypeError` propagates out of the wait. -/
  | unionTypeError
deriving DecidableEq, Repr

/-- Classification a single probe of the not-visible wait makes of the
element (the loop body, lines 256-266). -/
def not_visible_probe_step : VisibleProbe → ProbeVerdict
  | .absent => .unionTypeError
  | .staleOnCheck => .unionTypeError
  | .hiddenFound => .satisfiedNow
  | .visibleFound => .keepWaiting

inductive NotVisibleOutcome where
  | satisfied (probes : Nat)
  | timedOut (probes : Nat)
  | deadlineRaised (probes : Nat)
  /-- `TypeError` raised out of the wait by the union `except` clause. -/
  | unionTypeError (probes : Nat)
deriving DecidableEq, Repr

def wait_not_visible_loop (dl : Option Deadline) (probe : Nat → VisibleProbe)
    (times : Nat → IterTimes) (stopMs : Nat) : Nat → Nat → NotVisibleOutcome
  | 0, x => .timedOut x
  | r + 1, x =>
    if check_if_time_limit_exceeded dl (times x).tCheck then .deadlineRaised x
    else
      match not_visible_probe_step (probe x) with
      | .satisfiedNow => .satisfied (x + 1)
      | .unionTypeError => .unionTypeError (x + 1)
      | .keepWaiting =>
        if (times x).tNow ≥ stopMs then .timedOut (x + 1)
        else wait_not_visible_loop dl probe times stopMs r (x + 1)

def wait_for_element_not_visible (dl : Option Deadline) (probe : Nat → VisibleProbe)
    (times : Nat → IterTimes) (timeout startMs : Nat) : NotVisibleOutcome :=
  wait_not_visible_loop dl probe times (startMs + timeout * 1000) (timeout * 10) 0

/-! ## `has_attribute` and the probe bodies of the interactable and
disabled waits

`has_attribute(webelement, attr_name)` (element_actions.py lines 565-574)
executes `f"return arguments[0].hasAttribute({attr_name});"`: the attribute
name is interpolated without quotes, so for `attr_name = "disabled"` the
script reads `return arguments[0].hasAttribute(disabled);` and references
the free JavaScript identifier `disabled`.  Unless the page itself defines
such a global, the script throws `ReferenceError` and the driver raises
`JavascriptException`.  The handler of line 573,
`except WebDriverException | JavascriptException:`, is a `types.UnionType`,
so matching that exception raises `TypeError` and the `return False` of
line 574 is unreachable.

`wait_for_element_interactable` (lines 302-315) and
`wait_for_element_disabled` (lines 393-406) run, in one probe: find the
element; set `is_present`; check `is_displayed()`; call
`has_attribute(webelement, "disabled")`; check `webelement.is_enabled()` —
in that order.  A raised `TypeError` matches none of the waits' `except`
clauses and propagates out of the wait. -/

/-- Outcome of `execute_script` on the interpolated `hasAttribute` call. -/
inductive ScriptOutcome where
  /-- only when the page defines a global JavaScript binding named
  `disabled`: the script returns `hasAttribute` of its string coercion. -/
  | value (b : Bool)
  /-- the standard case: `ReferenceError: disabled is not defined`, raised
  by the driver as `JavascriptException`. -/
  | jsException
deriving DecidableEq, Repr

inductive HasAttrResult where
  | ret (b : Bool)
  /-- the union `except` clause raises `TypeError` while matching the
  script's exception. -/
  | typeErrorRaised
deriving DecidableEq, Repr

/-- `has_attribute` (lines 565-574) as a function of the script outcome. -/
def has_attribute (script : ScriptOutcome) : HasAttrResult :=
  match script with
  | .value b => .ret b
  | .jsException => .typeErrorRaised

/-- A probe's view of the element: absence, staleness raised while checking
it, or a found element with its displayed state, the behaviour of the
`hasAttribute` script against it, and its `is_enabled()` answer. -/
inductive ElemFind where
  | absent
  | staleFound
  | elem (displayed : Bool) (script : ScriptOutcome) (enabled : Bool)
deriving DecidableEq, Repr

inductive InteractableStep where
  | satisfied
  | notPresentSF
  | staleSF
  | notVisibleSF
  | disabledSF
  /-- `TypeError` from `has_attribute` propagates out of the wait. -/
  | typeErrorProp
deriving DecidableEq, Repr

/-- One probe of `wait_for_element_interactable`: the `try` body of lines
304-315 with its `except` classifications.  `ElementNotInteractableException`
is raised both when `has_attribute` returns `True` (before `is_enabled()`
is reached) and when `is_enabled()` is false; a `TypeError` raised inside
`has_attribute` is caught by no clause. -/
def wait_for_element_interactable_probe : ElemFind → InteractableStep
  | .absent => .notPresentSF
  | .staleFound => .staleSF
  | .elem displayed script enabled =>
    if !displayed then .notVisibleSF
    else
      match has_attribute script with
      | .typeErrorRaised => .typeErrorProp
      | .ret true => .disabledSF
      | .ret false => if enabled then .satisfied else .disabledSF

inductive DisabledStep where
  | satisfied
  | notPresentSF
  | staleSF
  | notVisibleSF
  | stillEnabledSF
  /-- `TypeError` from `has_attribute` propagates out of the wait. -/
  | typeErrorProp
deriving DecidableEq, Repr

/-- One probe of `wait_for_element_disabled`: the `try` body of lines
395-406.  When `has_attribute` returns `True` the element is returned at
once, before `is_enabled()` is reached; on `False`, `is_enabled() = True`
raises `ValueError` ("is still enabled") and `False` returns the element;
a `TypeError` raised inside `has_attribute` is caught by no clause. -/
def wait_for_element_disabled_probe : ElemFind → DisabledStep
  | .absent => .notPresentSF
  | .staleFound => .staleSF
  | .elem displayed script enabled =>
    if !displayed then .notVisibleSF
    else
      match has_attribute script with
      | .typeErrorRaised => .typeErrorProp
      | .ret true => .satisfied
      | .ret false => if enabled then .stillEnabledSF else .satisfied

/-! ## Shadow-chain validation (sel4/core/shadow.py)

`get_shadow_element` (lines 44-63) begins with:

    self.wait_for_ready_state_complete()
    ... timeout adjustment ...
    _fail_if_invalid_shadow_selector_usage(selector)
    if "::shadow " not in selector:
        raise TypeError(...)
    selectors = selector.split("::shadow ")
    element = self.get_element(selectors[0])   -- first remote lookup
    ...

`_fail_if_invalid_shadow_selector_usage` (lines 16-17) has the literal body
`...` (Python `Ellipsis`): it performs no check and raises nothing.  The
validation phase therefore rejects a selector exactly when it has no
"::shadow " delimiter, and otherwise proceeds to remote resolution with the
split segments. -/

/-- sel4/core/shadow.py lines 16-17: the function body is the no-op `...`. -/
def fail_if_invalid_shadow_selector_usage (_selector : String) : Unit := ()

/-- The shadow-piercing delimiter. -/
def shadowDelim : List Char := "::shadow ".data

inductive ShadowValidation where
  /-- `raise TypeError(...)` before any element lookup. -/
  | rejected (message : String)
  /-- validation passed: resolution continues with `get_element` on the
  first segment and shadow-root piercing for each following segment. -/
  | proceeds (firstSegment : String) (restSegments : List String)
deriving DecidableEq, Repr

/-- The validation prefix of `get_shadow_element` (and identically of
`ShadowElement._get_shadow_element` in `sel4/core/helpers/shadow.py`
lines 45-51, which performs no `_fail_if_invalid_shadow_selector_usage`
call at all): the only rejection is the missing-delimiter `TypeError`. -/
def get_shadow_element_validation (selector : String) : ShadowValidation :=
  let _ := fail_if_invalid_shadow_selector_usage selector
  if !containsSub selector.data shadowDelim then
    .rejected "A Shadow DOM selector must contain at least one \"::shadow \"!"
  else
    match (pySplit selector.data shadowDelim).map String.mk with
    | [] => .proceeds "" []
    | s0 :: rest => .proceeds s0 rest

/-- The real end-on-delimiter check exists in the repository only as the
dead nested function `__fail_if_invalid_shadow_selector_usage`
(sel4/core/helpers/shadow.py lines 398-404), which no code path calls:
`selector.strip().endswith("::shadow")` would reject the chain. -/
def dead_fail_if_invalid_shadow_selector_usage (selector : String) : Bool :=
  pyEndsWith (pyStrip selector.data) "::shadow".data

/-! ## The resilient retry wrapper (sel4/utils/retries.py)

`__retry_internal` (lines 20-69) is a `while _tries:` loop: call `func()`;
on an exception in the configured set decrement `_tries`, re-raise when
`_tries` hits 0 or when the elapsed milliseconds exceed `timeout_ms`,
otherwise `time.sleep(_delay)`, multiply the delay by `backoff`, add the
jitter, clamp to `max_delay`, and go round again.  An exception outside the
set is not caught by the `except` clause and propagates at once.  With
`tries = 0` the `while` condition is falsy immediately and the function
falls off its end, returning Python `None`.

The embedding abstracts: the exception type to a type `ε` with a membership
test `matches : ε → Bool`; the call to an oracle `f : Nat → CallResult`
giving the k-th attempt's outcome; the clock to `now : Nat → Nat`, the value
of `int(round(time.time() * 1000))` read at attempt k's elapsed check; the
jitter sample of attempt k (fixed or drawn from the range) to `jit k : ℚ`.
Delays are exact rationals.  The Python loop can run forever (`tries = -1`);
the model takes a fuel bound and reports `fuelOut` when it is hit. -/

inductive CallResult (ε α : Type) where
  | ok (a : α)
  | raised (e : ε)
deriving DecidableEq, Repr

inductive RetryOutcome (ε α : Type) where
  /-- normal return: `some` from `return func()`, `none` from falling off
  the function's end (Python `None`). -/
  | value (a : Option α)
  /-- an exception propagates out of the wrapper. -/
  | raised (e : ε)
  /-- fuel bound hit (the Python loop is still running). -/
  | fuelOut
deriving DecidableEq, Repr

/-- What one run of the wrapper did: its result, how many times it invoked
the wrapped function, and the durations of its `time.sleep(_delay)` calls in
order. -/
structure RetryTrace (ε α : Type) where
  outcome : RetryOutcome ε α
  calls : Nat
  sleeps : List ℚ
deriving DecidableEq, Repr

/-- The delay update between two attempts (retries.py lines 59-68):
`_delay *= backoff`, `_delay += jitter` (the sample for attempt `k`), and
the clamp `_delay = min(_delay, max_delay)` when a maximum is set. -/
def next_delay (backoff : ℚ) (jit : Nat → ℚ) (maxDelay : Option ℚ) (d : ℚ)
    (k : Nat) : ℚ :=
  let d1 := d * backoff + jit k
  match maxDelay with
  | some m => min d1 m
  | none => d1

/-- `__retry_internal`'s loop.  `tries` is the live `_tries` (an `int`:
-1 means unbounded), `delay` the live `_delay`, `k` the attempt index. -/
def retry_internal_loop {ε α : Type} (f : Nat → CallResult ε α) (isMatch : ε → Bool)
    (now : Nat → Nat) (startTime timeoutMs : Nat) (jit : Nat → ℚ) (backoff : ℚ)
    (maxDelay : Option ℚ) : Nat → Int → ℚ → Nat → RetryTrace ε α
  | fuel, tries, delay, k =>
    if tries = 0 then ⟨.value none, 0, []⟩
    else
      match fuel with
      | 0 => ⟨.fuelOut, 0, []⟩
      | fuel + 1 =>
        match f k with
        | .ok a => ⟨.value (some a), 1, []⟩
        | .raised e =>
          if !isMatch e then ⟨.raised e, 1, []⟩
          else
            let tries1 := tries - 1
            if tries1 = 0 then ⟨.raised e, 1, []⟩
            else if now k - startTime > timeoutMs then ⟨.raised e, 1, []⟩
            else
              let rest := retry_internal_loop f isMatch now startTime timeoutMs jit backoff
                maxDelay fuel tries1 (next_delay backoff jit maxDelay delay k) (k + 1)
              ⟨rest.outcome, rest.calls + 1, delay :: rest.sleeps⟩

/-- `retry_call(func, ..., exceptions, tries, delay, max_delay, backoff,
jitter)` (retries.py lines 142-180): it forwards to `__retry_internal` with
`timeout_ms = _MAX_WAIT` and attempt index starting at 0.  `startTime` is
the clock read `start_time = int(round(time.time() * 1000))` on entry. -/
def retry_call {ε α : Type} (f : Nat → CallResult ε α) (isMatch : ε → Bool)
    (now : Nat → Nat) (startTime : Nat) (jit : Nat → ℚ) (fuel : Nat) (tries : Int)
    (delay : ℚ) (maxDelay : Option ℚ) (backoff : ℚ) : RetryTrace ε α :=
  retry_internal_loop f isMatch now startTime 1073741823 jit backoff maxDelay fuel tries delay 0

/-- The delay schedule the spec describes: sleep the current delay, multiply
it by the backoff factor, add the attempt's jitter, clamp to the maximum
delay when one is set.  `backoff_delays d k n` lists the first `n` sleep
durations starting from delay `d` at attempt `k`. -/
def backoff_delays (backoff : ℚ) (jit : Nat → ℚ) (maxDelay : Option ℚ) :
    ℚ → Nat → Nat → List ℚ
  | _, _, 0 => []
  | d, k, n + 1 =>
    d :: backoff_delays backoff jit maxDelay (next_delay backoff jit maxDelay d k) (k + 1) n

/-! ## The XPath-to-CSS translator (sel4/core/helpers__/translator.py)

`convert_xpath_to_css` (lines 80-193) runs, in order:

1. `xpath.replace(" = '", "='")`;
2. an MS-Edge class+text compound special case (early return);
3. `re.match` against `//tag[@attr='value' and (contains(., 'TEXT'))]`
   (early return);
4. `re.match` against `//tag[@a1='v1' and (@a2='v2')]` (early return);
5. escaping of brackets inside double-quoted string literals (guarded by
   `xpath[0]`, `xpath[-1]` — an `IndexError` on the empty string);
6. `replace("descendant-or-self::*/", "descORself/")` and, for inputs
   longer than 3, `//` → `/descORself/` past the first three characters;
7. folding of a single ` and contains(@attr, ` predicate into `_STAR_=`;
8. stripping of an outer grouping `(...)`;
9. `_get_raw_css_from_xpath`: the node-at-a-time regex translator, a hard
   `XpathException` on the first position where the node pattern does not
   match;
10. quoting of bare `[attr=value]` fragments, restoration of the escaped
    brackets with `\[` / `\]`, and a fixed chain of string replacements.

The node regex `_validation_re` is reimplemented below as an explicit
backtracking matcher with the same greedy semantics: alternation tries
`id(...)` first; quantifiers are greedy, so a value capture extends to the
rightmost position where its closing context (`'`]`, `')]`, `)`) still
matches; the predicate group and the `[n]` index group are optional and
simply skipped when they fail.  Note the stray parenthesis in the
`attribute` sub-pattern of the source closes the `mattr`/`cattr` groups just
before the `=` / `,`, so those groups capture `@?name` with an optional
trailing `()`. -/

/-- The regex class `\w` (ASCII approximation of Python's unicode default). -/
def isWordChar (c : Char) : Bool := c.isAlphanum || c == '_'

def isTagStart (c : Char) : Bool := c.isAlpha

def isTagChar (c : Char) : Bool := c.isAlphanum

/-- First character of the `attribute` sub-pattern: `[.a-zA-Z_:]`. -/
def isAttrStart (c : Char) : Bool := c == '.' || c.isAlpha || c == '_' || c == ':'

/-- Continuation of the `attribute` sub-pattern: `[-\w:.]`. -/
def isAttrChar (c : Char) : Bool := c == '-' || isWordChar c || c == ':' || c == '.'

def isQuoteChar (c : Char) : Bool := c == '"' || c == '\''

/-- Whether `v` matches the `value` sub-pattern
`\s*` then `[\w/:]` then a class holding dash, slash, `\w`, `\s` and `\S`
(the final class matches every character, so the constraint is only on the
first non-space character). -/
def isValueChars (v : List Char) : Bool :=
  match v.dropWhile isSpaceChar with
  | [] => false
  | c :: _ => isWordChar c || c == '/' || c == ':'

/-- Greedy search: try the largest candidate first, counting down (the
backtracking order of a greedy quantifier). -/
def searchDown {β : Type} (p : Nat → Option β) : Nat → Option β
  | 0 => p 0
  | n + 1 => (p (n + 1)).orElse fun _ => searchDown p n

/-- `takeWhile` bounded to at most `n` elements (for `{0,10}`). -/
def takeWhileN (f : Char → Bool) : Nat → List Char → List Char
  | 0, _ => []
  | _, [] => []
  | n + 1, c :: cs => if f c then c :: takeWhileN f n cs else []

def nonSpaceRun (r : List Char) : List Char := r.takeWhile (fun c => !isSpaceChar c)

/-- The named groups of one match of the node pattern, and the match's
total length (`node.end()`). -/
structure NodeMatch where
  len : Nat
  idvalue : Option (List Char) := none
  nav : Option (List Char) := none
  tag : Option (List Char) := none
  mattr : Option (List Char) := none
  mvalue : Option (List Char) := none
  cattr : Option (List Char) := none
  cvalue : Option (List Char) := none
  nth : Option (List Char) := none
deriving DecidableEq, Repr

/-- Terminator of the `id(...)` value at split point `k`: `["\']?\)`
consumes 2 characters when a quote precedes the parenthesis, otherwise 1. -/
def idTermAt (r : List Char) (k : Nat) : Option Nat :=
  match r.drop k with
  | ')' :: _ => some 1
  | c :: ')' :: _ => if isQuoteChar c then some 2 else none
  | _ => none

/-- Greedy value capture of the `id(...)` alternative: the longest prefix of
`r` that matches `value` and is followed by `["\']?\)`.  `pre` is the length
already consumed before the value. -/
def matchIdAfterQuote (r : List Char) (pre : Nat) : Option NodeMatch :=
  searchDown (fun k =>
    if isValueChars (r.take k) then
      match idTermAt r k with
      | some t => some { len := pre + k + t, idvalue := some (r.take k) }
      | none => none
    else none) r.length

/-- The `^id\(["\']?(?P<idvalue>value)["\']?\)` alternative; the optional
leading quote is consumed greedily, falling back to not consuming it. -/
def matchIdNode (s : List Char) : Option NodeMatch :=
  match s with
  | 'i' :: 'd' :: '(' :: r =>
    (match r with
     | c :: r1 =>
       if isQuoteChar c then (matchIdAfterQuote r1 4).orElse fun _ => matchIdAfterQuote r 3
       else matchIdAfterQuote r 3
     | [] => none)
  | _ => none

/-- Attribute-name core `[.a-zA-Z_:][-\w:.]*`: its length at the head of
`r`, or `none`. -/
def attrCore (r : List Char) : Option Nat :=
  match r with
  | c :: cs => if isAttrStart c then some (1 + (cs.takeWhile isAttrChar).length) else none
  | [] => none

/-- Greedy `mvalue` capture: the longest prefix matching `value` followed by
a quote and `]`. -/
def matchedValueSearch (v : List Char) : Option Nat :=
  searchDown (fun k =>
    if isValueChars (v.take k) then
      match v.drop k with
      | c :: ']' :: _ => if isQuoteChar c then some k else none
      | _ => none
    else none) v.length

/-- Length of the optional leading `@` (the `@?` of the predicate
alternatives; `@` is not an attribute-start character, so it is consumed
exactly when present). -/
def ampLenOf (r : List Char) : Nat :=
  match r with
  | '@' :: _ => 1
  | _ => 0

/-- Tail of the `matched` predicate alternative after `@?` (length
`ampLen`) and an attribute-name of length `n + extra` (`extra` = 2 for a
consumed `()`): consume `=`, a quote, the greedy value, its closing quote
and the `]`.  Returns (consumed length including both brackets, `mattr`,
`mvalue`). -/
def matchedAltTail (r : List Char) (ampLen n extra : Nat) :
    Option (Nat × List Char × List Char) :=
  match (r.drop ampLen).drop (n + extra) with
  | '=' :: q :: rest =>
    if isQuoteChar q then
      match matchedValueSearch rest with
      | some k => some (1 + ampLen + (n + extra) + 2 + k + 2,
          r.take (ampLen + (n + extra)), rest.take k)
      | none => none
    else none
  | _ => none

/-- The first predicate alternative `@?attr=["\']mvalue["\']` (followed by
`]`), on the text `r` after the opening `[`. -/
def matchMatchedAlt (r : List Char) : Option (Nat × List Char × List Char) :=
  match attrCore (r.drop (ampLenOf r)) with
  | none => none
  | some n =>
    if ((r.drop (ampLenOf r)).drop n).take 2 == ['(', ')'] then
      (matchedAltTail r (ampLenOf r) n 2).orElse
        fun _ => matchedAltTail r (ampLenOf r) n 0
    else matchedAltTail r (ampLenOf r) n 0

/-- Greedy `cvalue` capture: the longest prefix matching `value` followed by
a quote, `)` and `]`. -/
def containedValueSearch (v : List Char) : Option Nat :=
  searchDown (fun k =>
    if isValueChars (v.take k) then
      match v.drop k with
      | c :: ')' :: ']' :: _ => if isQuoteChar c then some k else none
      | _ => none
    else none) v.length

/-- Tail of the `contained` predicate alternative, on the text `r1` after
`contains(`, past `@?` (length `ampLen`) and an attribute-name of length
`n + extra`: consume `,`, the greedy `\s*`, a quote, the greedy value, its
closing quote, the `)` and the `]`. -/
def containedAltTail (r1 : List Char) (ampLen n extra : Nat) :
    Option (Nat × List Char × List Char) :=
  match (r1.drop ampLen).drop (n + extra) with
  | ',' :: rest =>
    (match rest.drop ((rest.takeWhile isSpaceChar).length) with
     | q :: rest2 =>
       if isQuoteChar q then
         match containedValueSearch rest2 with
         | some k =>
           some (1 + 9 + ampLen + (n + extra) + 1 + (rest.takeWhile isSpaceChar).length
               + 1 + k + 3,
             r1.take (ampLen + (n + extra)), rest2.take k)
         | none => none
       else none
     | [] => none)
  | _ => none

def matchContainedAlt (r : List Char) : Option (Nat × List Char × List Char) :=
  if leadsWith "contains(".data r then
    match attrCore ((r.drop 9).drop (ampLenOf (r.drop 9))) with
    | none => none
    | some n =>
      if (((r.drop 9).drop (ampLenOf (r.drop 9))).drop n).take 2 == ['(', ')'] then
        (containedAltTail (r.drop 9) (ampLenOf (r.drop 9)) n 2).orElse
          fun _ => containedAltTail (r.drop 9) (ampLenOf (r.drop 9)) n 0
      else containedAltTail (r.drop 9) (ampLenOf (r.drop 9)) n 0
  else none

inductive PredMatch where
  | matchedP (len : Nat) (mattr mvalue : List Char)
  | containedP (len : Nat) (cattr cvalue : List Char)
  | noPred
deriving DecidableEq, Repr

/-- The optional bracketed predicate group: the `matched` alternative is
tried before `contained`; failure of both leaves the group unmatched. -/
def matchPred (r : List Char) : PredMatch :=
  match r with
  | '[' :: r1 =>
    match matchMatchedAlt r1 with
    | some (len, a, v) => .matchedP len a v
    | none =>
      match matchContainedAlt r1 with
      | some (len, a, v) => .containedP len a v
      | none => .noPred
  | _ => .noPred

/-- The optional `(\[(?P<nth>\d+)\])?` group. -/
def matchNth (r : List Char) : Option (Nat × List Char) :=
  match r with
  | '[' :: r1 =>
    if (r1.takeWhile Char.isDigit).isEmpty then none
    else
      match r1.drop ((r1.takeWhile Char.isDigit).length) with
      | ']' :: _ =>
        some (2 + (r1.takeWhile Char.isDigit).length, r1.takeWhile Char.isDigit)
      | _ => none
  | _ => none

/-- Length of the `//?` navigation token at the head (2 when a second
slash follows, else 1); `s1` is the text after the first slash. -/
def navLenOf (s1 : List Char) : Nat :=
  match s1 with
  | '/' :: _ => 2
  | _ => 1

/-- The tag token `([a-zA-Z][a-zA-Z0-9]{0,10}|\*)` at the head of `r1`:
its length and its characters (alpha branch first, greedy up to 11). -/
def tagInfoOf (r1 : List Char) : Option (Nat × List Char) :=
  match r1 with
  | '*' :: _ => some (1, ['*'])
  | c :: cs =>
    if isTagStart c then
      some (1 + (takeWhileN isTagChar 10 cs).length, c :: takeWhileN isTagChar 10 cs)
    else none
  | [] => none

/-- The consumed length of the optional predicate group. -/
def predLenOf (pm : PredMatch) : Nat :=
  match pm with
  | .matchedP l _ _ => l
  | .containedP l _ _ => l
  | .noPred => 0

/-- The record assembled by the navigation alternative out of the nav
length, the tag, the predicate match and the nth match. -/
def navNodeFrom (s : List Char) (navLen tagLen : Nat) (tag : List Char)
    (pm : PredMatch) (nthInfo : Option (Nat × List Char)) : NodeMatch :=
  { len := navLen + tagLen + predLenOf pm + (nthInfo.map Prod.fst).getD 0,
    nav := some (s.take navLen), tag := some tag,
    mattr := match pm with
      | .matchedP _ a _ => some a
      | _ => none,
    mvalue := match pm with
      | .matchedP _ _ v => some v
      | _ => none,
    cattr := match pm with
      | .containedP _ a _ => some a
      | _ => none,
    cvalue := match pm with
      | .containedP _ _ v => some v
      | _ => none,
    nth := nthInfo.map Prod.snd }

/-- The `(?P<nav>//?)(?P<tag>...)(pred)?(nth)?` alternative. -/
def matchNavNode (s : List Char) : Option NodeMatch :=
  match s with
  | '/' :: s1 =>
    match tagInfoOf (s.drop (navLenOf s1)) with
    | none => none
    | some (tagLen, tag) =>
      some (navNodeFrom s (navLenOf s1) tagLen tag
        (matchPred ((s.drop (navLenOf s1)).drop tagLen))
        (matchNth (((s.drop (navLenOf s1)).drop tagLen).drop
          (predLenOf (matchPred ((s.drop (navLenOf s1)).drop tagLen))))))
  | _ => none

/-- One `prog.match` on the remaining text: the `id(...)` alternative is
tried before the navigation alternative. -/
def matchNode (s : List Char) : Option NodeMatch :=
  (matchIdNode s).orElse fun _ => matchNavNode s

inductive XErr where
  | xpath (msg : String)
  | indexError
deriving DecidableEq, Repr

def replaceChar (a b : Char) (l : List Char) : List Char :=
  l.map fun c => if c == a then b else c

/-- The CSS fragment one matched node contributes, and the new value of the
loop-carried `attr` variable (translator.py lines 206-248: `attr` is only
assigned in the branches shown there, so a `contained` match whose `cattr`
is neither `@...` nor `text()` nor `.` leaves the previous `attr` in
place). -/
def nodeCss (m : NodeMatch) (first : Bool) (attrPrev : List Char) :
    List Char × List Char :=
  let nav : List Char :=
    if first then []
    else if m.nav == some ['/', '/'] then [' ']
    else [' ', '>', ' ']
  let tag : List Char :=
    match m.tag with
    | some t => if t == ['*'] then [] else t
    | none => []
  let attr : List Char :=
    match m.idvalue with
    | some v => '#' :: replaceChar ' ' '#' v
    | none =>
      match m.mattr, m.mvalue with
      | some a, some v =>
        if a == "@id".data then '#' :: replaceChar ' ' '#' v
        else if a == "@class".data then '.' :: replaceChar ' ' '.' v
        else if a == "text()".data || a == ".".data then
          ":contains(^".data ++ v ++ "$)".data
        else "[".data ++ pyReplace a "@".data [] ++ "=\"".data ++ v ++ "\"]".data
      | _, _ =>
        match m.cattr, m.cvalue with
        | some a, some v =>
          if leadsWith "@".data a then
            "[".data ++ pyReplace a "@".data [] ++ "*=\"".data ++ v ++ "\"]".data
          else if a == "text()".data then ":contains(\"".data ++ v ++ "\")".data
          else if a == ".".data then ":contains(\"".data ++ v ++ "\")".data
          else attrPrev
        | _, _ => []
  let nth : List Char :=
    match m.nth with
    | some ds => ":nth-of-type(".data ++ ds ++ ")".data
    | none => []
  (nav ++ tag ++ attr ++ nth, attr)

/-- The `while position < len(xpath)` loop of `_get_raw_css_from_xpath`
(lines 196-252), with the unmatched-node `XpathException`.  `orig` is the
whole input (named in the exception message); the fuel argument only bounds
the recursion and is initialised to the input length, which every node match
(length at least 1) respects. -/
def get_raw_css_loop (orig : List Char) :
    Nat → List Char → List Char → List Char → Bool → Except XErr (List Char)
  | _, [], css, _, _ => .ok (pyStrip css)
  | 0, _ :: _, _, _, _ =>
    .error (.xpath ("Invalid or unsupported Xpath: " ++ String.mk orig))
  | fuel + 1, s, css, attrPrev, first =>
    match matchNode s with
    | none => .error (.xpath ("Invalid or unsupported Xpath: " ++ String.mk orig))
    | some m =>
      get_raw_css_loop orig fuel (s.drop m.len)
        (css ++ (nodeCss m first attrPrev).1) (nodeCss m first attrPrev).2 false

def get_raw_css_from_xpath (s : List Char) : Except XErr (List Char) :=
  get_raw_css_loop s s.length s [] [] true

/-! ### The special-case pre-passes -/

def msEdgeC3 : List Char :=
  "@class and contains(concat(' ', normalize-space(@class), ' '), ' ".data

def msEdgeP2 : List Char := " ') and (contains(., '".data

def msEdgeSep : List Char := " ') and (".data

/-- The MS-Edge class+text compound case (lines 87-99): early return of
`tag.class:contains("text")`. -/
def convertEdgeCase1 (x : List Char) : Option (List Char) :=
  if containsSub x msEdgeC3 && pyCount x msEdgeC3 == 1 && pyCount x "[@".data == 1 then
    if pyCount x msEdgeP2 == 1 && pyEndsWith x "'))]".data && pyCount x "//".data == 1
        && pyCount x msEdgeSep == 1 then
      let sContains := (pySplit ((pySplit x msEdgeP2).getD 1 []) "'))]".data).getD 0 []
      let sTag := (pySplit ((pySplit x "//".data).getD 1 []) "[@class".data).getD 0 []
      let sClass := (pySplit ((pySplit x msEdgeC3).getD 1 []) msEdgeSep).getD 0 []
      some (sTag ++ ".".data ++ sClass ++ ":contains(\"".data ++ sContains ++ "\")".data)
    else none
  else none

/-- `re.match` with
`^\s*//(\S+)\[@(\S+)='(\S+)'\s+and\s+\(contains\(\.,\s'(\S+)'\)\)\]`
(lines 102-112): each `\S+` group is greedy, backtracking to the delimiter
that follows it; outer groups backtrack before inner ones. -/
def matchAndPattern1 (x : List Char) :
    Option (List Char × List Char × List Char × List Char) :=
  let afterWs := x.dropWhile isSpaceChar
  match afterWs with
  | '/' :: '/' :: r =>
    let run1 := nonSpaceRun r
    searchDown (fun j1 =>
      if j1 = 0 then none
      else if run1.length < j1 then none
      else if leadsWith "[@".data (r.drop j1) then
        let r2 := r.drop (j1 + 2)
        let run2 := nonSpaceRun r2
        searchDown (fun j2 =>
          if j2 = 0 then none
          else if run2.length < j2 then none
          else if leadsWith "='".data (r2.drop j2) then
            let r3 := r2.drop (j2 + 2)
            let run3 := nonSpaceRun r3
            searchDown (fun j3 =>
              if j3 = 0 then none
              else if run3.length < j3 then none
              else
                match r3.drop j3 with
                | '\'' :: r4 =>
                  let ws1 := (r4.takeWhile isSpaceChar).length
                  if ws1 = 0 then none
                  else
                    let r5 := r4.drop ws1
                    if leadsWith "and".data r5 then
                      let r6 := r5.drop 3
                      let ws2 := (r6.takeWhile isSpaceChar).length
                      if ws2 = 0 then none
                      else
                        let r7 := r6.drop ws2
                        if leadsWith "(contains(.,".data r7 then
                          match r7.drop 12 with
                          | c :: '\'' :: r8 =>
                            if isSpaceChar c then
                              let run4 := nonSpaceRun r8
                              searchDown (fun j4 =>
                                if j4 = 0 then none
                                else if run4.length < j4 then none
                                else if leadsWith "'))]".data (r8.drop j4) then
                                  some (r.take j1, r2.take j2, r3.take j3, r8.take j4)
                                else none) r8.length
                            else none
                          | _ => none
                        else none
                    else none
                | _ => none) r3.length
          else none) r2.length
      else none) r.length
  | _ => none

/-- `re.match` with `^\s*//(\S+)\[@(\S+)='(\S+)'\s+and\s+\(@(\S+)='(\S+)'\)\]`
(lines 115-126). -/
def matchAndPattern2 (x : List Char) :
    Option (List Char × List Char × List Char × List Char × List Char) :=
  let afterWs := x.dropWhile isSpaceChar
  match afterWs with
  | '/' :: '/' :: r =>
    let run1 := nonSpaceRun r
    searchDown (fun j1 =>
      if j1 = 0 then none
      else if run1.length < j1 then none
      else if leadsWith "[@".data (r.drop j1) then
        let r2 := r.drop (j1 + 2)
        let run2 := nonSpaceRun r2
        searchDown (fun j2 =>
          if j2 = 0 then none
          else if run2.length < j2 then none
          else if leadsWith "='".data (r2.drop j2) then
            let r3 := r2.drop (j2 + 2)
            let run3 := nonSpaceRun r3
            searchDown (fun j3 =>
              if j3 = 0 then none
              else if run3.length < j3 then none
              else
                match r3.drop j3 with
                | '\'' :: r4 =>
                  let ws1 := (r4.takeWhile isSpaceChar).length
                  if ws1 = 0 then none
                  else
                    let r5 := r4.drop ws1
                    if leadsWith "and".data r5 then
                      let r6 := r5.drop 3
                      let ws2 := (r6.takeWhile isSpaceChar).length
                      if ws2 = 0 then none
                      else
                        let r7 := r6.drop ws2
                        if leadsWith "(@".data r7 then
                          let r8 := r7.drop 2
                          let run4 := nonSpaceRun r8
                          searchDown (fun j4 =>
                            if j4 = 0 then none
                            else if run4.length < j4 then none
                            else if leadsWith "='".data (r8.drop j4) then
                              let r9 := r8.drop (j4 + 2)
                              let run5 := nonSpaceRun r9
                              searchDown (fun j5 =>
                                if j5 = 0 then none
                                else if run5.length < j5 then none
                                else if leadsWith "')]".data (r9.drop j5) then
                                  some (r.take j1, r2.take j2, r3.take j3,
                                    r8.take j4, r9.take j5)
                                else none) r9.length
                            else none) r8.length
                        else none
                    else none
                | _ => none) r3.length
          else none) r2.length
      else none) r.length
  | _ => none

def bracketEscapeChunk (c : List Char) : List Char :=
  pyReplace (pyReplace c "[".data "_STR_L_bracket_".data) "]".data "_STR_R_bracket_".data

def joinWithQuote : List (List Char) → List Char
  | [] => []
  | [c] => c
  | c :: rest => c ++ '"' :: joinWithQuote rest

/-- `_handle_brackets_in_strings` (lines 276-296): brackets inside the
odd-numbered chunks of a split on `"` are escaped to placeholder tokens. -/
def handle_brackets_in_strings (x : List Char) : List Char :=
  joinWithQuote ((pySplit x ['"']).enum.map fun ic =>
    if ic.1 % 2 = 1 then bracketEscapeChunk ic.2 else ic.2)

/-- Lines 134-136: the `descendant-or-self` replacement and the `//` →
`/descORself/` rewrite past the first three characters. -/
def descorself_pass (x : List Char) : List Char :=
  let x1 := pyReplace x "descendant-or-self::*/".data "descORself/".data
  if x1.length > 3 then x1.take 3 ++ pyReplace (x1.drop 3) "//".data "/descORself/".data
  else x1

/-- Lines 138-150: fold a single ` and contains(@attr, ` into `_STAR_=`,
deleting the character before the closing `]`. -/
def and_contains_pass (x : List Char) : List Char :=
  let pat := " and contains(@".data
  if containsSub x pat && pyCount x pat == 1 then
    match findSub pat x with
    | none => x
    | some i =>
      let spot1 := i + pat.length
      let attr := match findSubFrom x [','] spot1 with
        | some spot2 => (x.take spot2).drop spot1
        | none => (x.take (x.length - 1)).drop spot1
      let swap := " and contains(@".data ++ attr ++ ", ".data
      if containsSub x swap then
        match findSub swap x with
        | none => x
        | some swapSpot =>
          match findSubFrom x "]".data swapSpot with
          | some j =>
            if j ≥ 3 then
              let cp := j - 1
              pyReplace (x.take cp ++ x.drop (cp + 1)) swap "_STAR_=".data
            else x
          | none => x
      else x
  else x

/-- `_filter_xpath_grouping` (lines 255-273): drop the first `(`, then the
rightmost `)`; no `)` left is an `XpathException`. -/
def filter_xpath_grouping (x : List Char) : Except XErr (List Char) :=
  let x1 := x.drop 1
  match rfindSub x1 ")".data with
  | none => .error (.xpath ("Invalid or unsupported Xpath: " ++ String.mk x1))
  | some i => .ok (x1.take i ++ x1.drop (i + 1))

/-- One `re.findall` match of `\[\w+\=\S+\]` anchored at the head of `s`:
its length. -/
def attrDefAt (s : List Char) : Option Nat :=
  match s with
  | '[' :: r =>
    let w := r.takeWhile isWordChar
    if w.isEmpty then none
    else
      match r.drop w.length with
      | '=' :: r2 =>
        let run := nonSpaceRun r2
        searchDown (fun j =>
          if j = 0 then none
          else if run.length < j then none
          else
            match r2.drop j with
            | ']' :: _ => some (1 + w.length + 1 + j + 1)
            | _ => none) r2.length
      | _ => none
  | _ => none

/-- `re.findall(r"(\[\w+\=\S+\])", css)`: left-to-right, non-overlapping. -/
def findAttrDefs : Nat → List Char → List (List Char)
  | 0, _ => []
  | _, [] => []
  | fuel + 1, c :: cs =>
    match attrDefAt (c :: cs) with
    | some n => (c :: cs).take n :: findAttrDefs fuel ((c :: cs).drop n)
    | none => findAttrDefs fuel cs

/-- Lines 159-173: quote the value of a bare `[attr=value]` fragment. -/
def quoteAttrDef (css ad : List Char) : List Char :=
  if pyCount ad "[".data == 1 && pyCount ad "]".data == 1 && pyCount ad "=".data == 1
      && pyCount ad "\"".data == 0 && pyCount ad "'".data == 0
      && pyCount ad " ".data == 0 then
    let q1 := (findSub "=".data ad).getD 0 + 1
    let q2 := (findSub "]".data ad).getD 0
    pyReplace css ad (ad.take q1 ++ '\'' :: (ad.take q2).drop q1 ++ "']".data)
  else css

def attr_defs_pass (css : List Char) : List Char :=
  (findAttrDefs css.length css).foldl quoteAttrDef css

/-- Lines 176-191: the fixed replacement chain. -/
def final_replacements (css : List Char) : List Char :=
  let c1 := pyReplace css "_STR_L_bracket_".data "\\[".data
  let c2 := pyReplace c1 "_STR_R_bracket_".data "\\]".data
  let c3 := pyReplace c2 " > descORself > ".data " ".data
  let c4 := pyReplace c3 " descORself > ".data " ".data
  let c5 := pyReplace c4 "/descORself/*".data " ".data
  let c6 := pyReplace c5 "/descORself/".data " ".data
  let c7 := pyReplace c6 "descORself > ".data []
  let c8 := pyReplace c7 "descORself/".data " ".data
  let c9 := pyReplace c8 "descORself".data " ".data
  let c10 := pyReplace c9 "_STAR_=".data "*=".data
  let c11 := pyReplace c10 "]/".data "] ".data
  let c12 := pyReplace c11 "] *[".data "] > [".data
  let c13 := replaceChar '\'' '"' c12
  pyReplace c13 "[@".data "[".data

/-- Steps 5-9 of `convert_xpath_to_css` on the input after the
`" = '"` replacement: the generic-path transformations before
`_get_raw_css_from_xpath`.  An empty input fails `xpath[0]` with an
`IndexError`. -/
def xpathPrepass (x0 : List Char) : Except XErr (List Char) :=
  match x0 with
  | [] => .error .indexError
  | c0 :: _ =>
    let x1 :=
      if c0 != '"' && x0.getLastD ' ' != '"' && pyCount x0 "\"".data % 2 == 0 then
        handle_brackets_in_strings x0
      else x0
    let x2 := descorself_pass x1
    let x3 := and_contains_pass x2
    if leadsWith "(".data x3 then filter_xpath_grouping x3
    else .ok x3

/-- `convert_xpath_to_css` (translator.py lines 80-193). -/
def convert_xpath_to_css (xpath : String) : Except XErr String :=
  match convertEdgeCase1 (pyReplace xpath.data " = '".data "='".data) with
  | some css => .ok (String.mk css)
  | none =>
    match matchAndPattern1 (pyReplace xpath.data " = '".data "='".data) with
    | some (t, a, v, c) =>
      .ok (String.mk (t ++ "[".data ++ a ++ "=\"".data ++ v ++ "\"]:contains(\"".data
        ++ c ++ "\")".data))
    | none =>
      match matchAndPattern2 (pyReplace xpath.data " = '".data "='".data) with
      | some (t, a1, v1, a2, v2) =>
        .ok (String.mk (t ++ "[".data ++ a1 ++ "=\"".data ++ v1 ++ "\"][".data
          ++ a2 ++ "=\"".data ++ v2 ++ "\"]".data))
      | none =>
        match xpathPrepass (pyReplace xpath.data " = '".data "='".data) with
        | .error e => .error e
        | .ok x5 =>
          match get_raw_css_from_xpath x5 with
          | .error e => .error e
          | .ok rawCss => .ok (String.mk (final_replacements (attr_defs_pass rawCss)))

/-- Whether a translation result is the hard `XpathException` failure. -/
def isXpathFailure {α : Type} : Except XErr α → Bool
  | .error (.xpath _) => true
  | _ => false

/-- Whether `convert_xpath_to_css` returns through one of its three
special-case early returns (the MS-Edge compound and the two and-joined
predicate shapes) for the input after the leading `" = '"` replacement. -/
def convertEarlyPath (x0 : List Char) : Bool :=
  (convertEdgeCase1 x0).isSome || (matchAndPattern1 x0).isSome
    || (matchAndPattern2 x0).isSome

/-! ## The constrained node grammar

`XpathNodes s` says that `s` splits into a sequence of nonempty nodes of the
translator's constrained grammar — the declarative reading of
`_validation_re`: each node is `id(["\']? value ["\']? )` or
`//? tag ( [ @?attr = quote value quote ] | [ contains( @?attr , \s* quote
value quote ) ] )? ( [ digits ] )?`.  The soundness theorem below shows that
whenever `_get_raw_css_from_xpath` succeeds its input is in this grammar, so
an input outside the grammar is a hard `XpathException`. -/

def isNavTok (n : List Char) : Bool := n == ['/'] || n == ['/', '/']

def isTagTok (t : List Char) : Bool :=
  t == ['*'] ||
    (match t with
     | c :: r => isTagStart c && decide (r.length ≤ 10) && r.all isTagChar
     | [] => false)

def isAttrCore (a : List Char) : Bool :=
  match a with
  | c :: r => isAttrStart c && r.all isAttrChar
  | [] => false

/-- The `mattr`/`cattr` group shape `@?name` with an optional trailing
`()` — here without the `@`, which is carried separately. -/
def isAttrTok (a : List Char) : Bool :=
  isAttrCore a ||
    (decide (2 ≤ a.length) && isAttrCore (a.take (a.length - 2))
      && a.drop (a.length - 2) == ['(', ')'])

def isAmp (a : List Char) : Bool := a == [] || a == ['@']

def isQuoteTok (q : List Char) : Bool :=
  match q with
  | [c] => isQuoteChar c
  | _ => false

def isOptQuoteTok (q : List Char) : Bool := q == [] || isQuoteTok q

/-- The optional bracketed predicate of a navigation node. -/
inductive PredTok : List Char → Prop where
  | noneP : PredTok []
  | matchedPred (amp attr q1 v q2 : List Char)
      (hamp : isAmp amp = true) (hattr : isAttrTok attr = true)
      (hq1 : isQuoteTok q1 = true) (hq2 : isQuoteTok q2 = true)
      (hv : isValueChars v = true) :
      PredTok ('[' :: (amp ++ attr ++ '=' :: (q1 ++ v ++ q2 ++ [']'])))
  | containedPred (amp attr ws q1 v q2 : List Char)
      (hamp : isAmp amp = true) (hattr : isAttrTok attr = true)
      (hws : ws.all isSpaceChar = true)
      (hq1 : isQuoteTok q1 = true) (hq2 : isQuoteTok q2 = true)
      (hv : isValueChars v = true) :
      PredTok ('[' :: ("contains(".data ++ amp ++ attr ++ ',' ::
        (ws ++ q1 ++ v ++ q2 ++ [')', ']'])))

/-- The optional `[n]` positional index of a navigation node. -/
inductive NthTok : List Char → Prop where
  | noneN : NthTok []
  | nth (ds : List Char) (hne : ds ≠ []) (hds : ds.all Char.isDigit = true) :
      NthTok ('[' :: (ds ++ [']']))

/-- One node of the constrained grammar. -/
inductive NodeTok : List Char → Prop where
  | idNode (q1 v q2 : List Char)
      (hq1 : isOptQuoteTok q1 = true) (hq2 : isOptQuoteTok q2 = true)
      (hv : isValueChars v = true) :
      NodeTok ("id(".data ++ (q1 ++ v ++ q2 ++ [')']))
  | navNode (nav tag pred nth : List Char)
      (hnav : isNavTok nav = true) (htag : isTagTok tag = true)
      (hpred : PredTok pred) (hnth : NthTok nth) :
      NodeTok (nav ++ tag ++ pred ++ nth)

/-- A full input of the constrained grammar: a concatenation of nonempty
nodes. -/
inductive XpathNodes : List Char → Prop where
  | nil : XpathNodes []
  | cons (n rest : List Char) (hn : NodeTok n) (hne : n ≠ [])
      (hrest : XpathNodes rest) : XpathNodes (n ++ rest)

/-! # Theorems -/

/-- C1: the spec says a zero timeout performs exactly one probe; on the code
`wait_for_element_present` with `timeout = 0` runs `range(int(0 * 10))`, an
empty loop, so it performs zero probes — even a probe that would have
succeeded is never issued and the wait raises its timeout diagnostic at
once. -/
theorem c1_zero_timeout_single_probe_counterexample :
    wait_for_element_present none (fun _ => true) (fun _ => ⟨0, 0⟩) 0 0
      = PresentOutcome.timedOut 0 ∧
    (wait_for_element_present none (fun _ => true) (fun _ => ⟨0, 0⟩) 0 0).probes ≠ 1 := by
  decide

/-- C1 (amended): for every deadline store, probe oracle, time trace and
start instant, a `wait_for_element_present` with `timeout = 0` performs zero
probes and produces the timed-out outcome immediately, without any sleep. -/
theorem c1_zero_timeout_zero_probes (dl : Option Deadline) (found : Nat → Bool)
    (times : Nat → IterTimes) (startMs : Nat) :
    wait_for_element_present dl found times 0 startMs = PresentOutcome.timedOut 0 := rfl

/-- C2: a `wait_for_element_visible` run whose element is never found on any
attempt exhausts its loop and raises the diagnostic built in the
`not is_present` branch — whose text reads "was still present", not the
"was not present" wording the claim (and the spec's message table) states.
The run below probes an absent element for the whole 2-second wait. -/
theorem c2_visible_never_found_message :
    wait_for_element_visible none (fun _ => VisibleProbe.absent) (fun _ => ⟨0, 0⟩) 2 0
        "css selector" "#x" "/page"
      = VisibleOutcome.timedOut
          "Element css selector=\"#x\" on /page\n\twas still present after 2 second!" ∧
    visible_timeout_message "css selector" "#x" "/page" 2 false false
      ≠ "Element css selector=\"#x\" on /page\n\twas not present after 2 second!" := by
  constructor
  · rfl
  · decide

/-- C4: the shadow-chain validation rejects a selector with no
`::shadow ` delimiter (a `TypeError`), but a chain that ends on the
delimiter is not rejected: `_fail_if_invalid_shadow_selector_usage` has the
no-op body `...`, so validation proceeds to remote resolution with an empty
final segment.  The dead nested checker in `helpers/shadow.py` would have
rejected exactly this selector. -/
theorem c4_shadow_chain_validation :
    get_shadow_element_validation "host::shadow "
      = ShadowValidation.proceeds "host" [""] ∧
    get_shadow_element_validation "div.panel"
      = ShadowValidation.rejected
          "A Shadow DOM selector must contain at least one \"::shadow \"!" ∧
    dead_fail_if_invalid_shadow_selector_usage "host::shadow " = true := by
  refine ⟨?_, ?_, ?_⟩ <;> decide

/-- C5 (code bug): on any page without a global JavaScript binding named
`disabled` — in particular for every element that does carry the `disabled`
attribute — `has_attribute` cannot observe the attribute: its script
references the unquoted identifier and raises `JavascriptException`, whose
union `except` clause then raises `TypeError`, so both the disabled wait
and the interactable wait propagate `TypeError` from the first displayed
probe instead of classifying the element, whatever `is_enabled()` would
return.  Only in the global-`disabled` corner (the `value` script outcome)
does the short-circuit the claim describes occur. -/
theorem c5_disabled_attribute_type_error :
    (∀ e : Bool,
      has_attribute ScriptOutcome.jsException = HasAttrResult.typeErrorRaised ∧
      wait_for_element_disabled_probe (.elem true ScriptOutcome.jsException e)
        = DisabledStep.typeErrorProp ∧
      wait_for_element_interactable_probe (.elem true ScriptOutcome.jsException e)
        = InteractableStep.typeErrorProp) ∧
    (∀ e1 e2 : Bool,
      wait_for_element_disabled_probe (.elem true (ScriptOutcome.value true) e1)
        = DisabledStep.satisfied ∧
      wait_for_element_interactable_probe (.elem true (ScriptOutcome.value true) e1)
        = InteractableStep.disabledSF ∧
      wait_for_element_disabled_probe (.elem true (ScriptOutcome.value true) e1)
        = wait_for_element_disabled_probe (.elem true (ScriptOutcome.value true) e2)) := by
  decide

/-- C6 (code bug): a probe of the not-visible wait returns `True` at once
only for a found-but-hidden element; for an absent or stale element the
union `except` clause of line 265 raises `TypeError` while matching the
in-flight exception, so the wait raises `TypeError` on its first such probe
instead of being satisfied — as the three concrete one-probe runs show. -/
theorem c6_not_visible_union_except_type_error :
    not_visible_probe_step VisibleProbe.hiddenFound = ProbeVerdict.satisfiedNow ∧
    not_visible_probe_step VisibleProbe.absent = ProbeVerdict.unionTypeError ∧
    not_visible_probe_step VisibleProbe.staleOnCheck = ProbeVerdict.unionTypeError ∧
    wait_for_element_not_visible none (fun _ => VisibleProbe.absent)
      (fun _ => ⟨0, 0⟩) 5 0 = NotVisibleOutcome.unionTypeError 1 ∧
    wait_for_element_not_visible none (fun _ => VisibleProbe.staleOnCheck)
      (fun _ => ⟨0, 0⟩) 5 0 = NotVisibleOutcome.unionTypeError 1 ∧
    wait_for_element_not_visible none (fun _ => VisibleProbe.hiddenFound)
      (fun _ => ⟨0, 0⟩) 5 0 = NotVisibleOutcome.satisfied 1 := by
  decide

/-! ### Soundness of the node matcher against the grammar

The lemmas below extract, from a successful parse, the decomposition of the
consumed prefix into the grammar's components, concluding in
`matchNode_sound`: a matched node is a `NodeTok` of positive length. -/

theorem leadsWith_take {p s : List Char} (h : leadsWith p s = true) :
    p.length ≤ s.length ∧ s.take p.length = p := by
  induction p generalizing s with
  | nil => simp
  | cons a ps ih =>
    cases s with
    | nil => simp [leadsWith] at h
    | cons c cs =>
      simp only [leadsWith, Bool.and_eq_true, beq_iff_eq] at h
      obtain ⟨rfl, h2⟩ := h
      obtain ⟨hl, ht⟩ := ih h2
      refine ⟨by simpa using hl, ?_⟩
      simpa using ht

theorem searchDown_sound {β : Type} (p : Nat → Option β) :
    ∀ n b, searchDown p n = some b → ∃ k, k ≤ n ∧ p k = some b := by
  intro n
  induction n with
  | zero => exact fun b h => ⟨0, Nat.le_refl 0, h⟩
  | succ n ih =>
    intro b h
    rw [searchDown] at h
    cases hp : p (n + 1) with
    | some b' =>
      rw [hp] at h
      simp [Option.orElse] at h
      exact ⟨n + 1, Nat.le_refl _, by rw [hp, h]⟩
    | none =>
      rw [hp] at h
      simp [Option.orElse] at h
      obtain ⟨k, hk, hpk⟩ := ih b h
      exact ⟨k, by omega, hpk⟩

theorem takeWhileN_all (f : Char → Bool) : ∀ n l, (takeWhileN f n l).all f = true := by
  intro n
  induction n with
  | zero => intro l; simp [takeWhileN]
  | succ n ih =>
    intro l
    cases l with
    | nil => simp [takeWhileN]
    | cons c cs =>
      by_cases hc : f c = true
      · simp [takeWhileN, hc, ih cs]
      · simp [takeWhileN, hc]

theorem takeWhileN_length_le (f : Char → Bool) :
    ∀ n l, (takeWhileN f n l).length ≤ n := by
  intro n
  induction n with
  | zero => intro l; simp [takeWhileN]
  | succ n ih =>
    intro l
    cases l with
    | nil => simp [takeWhileN]
    | cons c cs =>
      by_cases hc : f c = true
      · simpa [takeWhileN, hc] using ih cs
      · simp [takeWhileN, hc]

theorem takeWhileN_take (f : Char → Bool) :
    ∀ n l, l.take ((takeWhileN f n l).length) = takeWhileN f n l := by
  intro n
  induction n with
  | zero => intro l; simp [takeWhileN]
  | succ n ih =>
    intro l
    cases l with
    | nil => simp [takeWhileN]
    | cons c cs =>
      by_cases hc : f c = true
      · simp [takeWhileN, hc, ih cs]
      · simp [takeWhileN, hc]

theorem takeWhile_take (f : Char → Bool) (l : List Char) :
    l.take ((l.takeWhile f).length) = l.takeWhile f := by
  have h := List.takeWhile_append_dropWhile (p := f) (l := l)
  calc l.take ((l.takeWhile f).length)
      = (l.takeWhile f ++ l.dropWhile f).take ((l.takeWhile f).length) := by rw [h]
    _ = l.takeWhile f := List.take_left ..

theorem takeWhile_drop (f : Char → Bool) (l : List Char) :
    l.drop ((l.takeWhile f).length) = l.dropWhile f := by
  have h := List.takeWhile_append_dropWhile (p := f) (l := l)
  calc l.drop ((l.takeWhile f).length)
      = (l.takeWhile f ++ l.dropWhile f).drop ((l.takeWhile f).length) := by rw [h]
    _ = l.dropWhile f := List.drop_left ..

theorem matchedValueSearch_spec {v : List Char} {k : Nat}
    (h : matchedValueSearch v = some k) :
    k ≤ v.length ∧ isValueChars (v.take k) = true ∧
      ∃ q tail, v.drop k = q :: ']' :: tail ∧ isQuoteChar q = true := by
  obtain ⟨k', hk', hpk⟩ := searchDown_sound _ _ _ h
  by_cases h1 : isValueChars (v.take k') = true
  · rw [if_pos h1] at hpk
    split at hpk
    · next q tail heq =>
        by_cases h3 : isQuoteChar q = true
        · rw [if_pos h3] at hpk
          injection hpk with hkk
          subst hkk
          exact ⟨hk', h1, q, tail, heq, h3⟩
        · rw [if_neg h3] at hpk; cases hpk
    · cases hpk
  · rw [if_neg h1] at hpk; cases hpk

theorem containedValueSearch_spec {v : List Char} {k : Nat}
    (h : containedValueSearch v = some k) :
    k ≤ v.length ∧ isValueChars (v.take k) = true ∧
      ∃ q tail, v.drop k = q :: ')' :: ']' :: tail ∧ isQuoteChar q = true := by
  obtain ⟨k', hk', hpk⟩ := searchDown_sound _ _ _ h
  by_cases h1 : isValueChars (v.take k') = true
  · rw [if_pos h1] at hpk
    split at hpk
    · next q tail heq =>
        by_cases h3 : isQuoteChar q = true
        · rw [if_pos h3] at hpk
          injection hpk with hkk
          subst hkk
          exact ⟨hk', h1, q, tail, heq, h3⟩
        · rw [if_neg h3] at hpk; cases hpk
    · cases hpk
  · rw [if_neg h1] at hpk; cases hpk

theorem take_append_len (a b : List Char) (n : Nat) :
    (a ++ b).take (a.length + n) = a ++ b.take n := by
  simp [List.take_add]

theorem idTermAt_spec {r : List Char} {k t : Nat} (h : idTermAt r k = some t) :
    (t = 1 ∧ ∃ tail, r.drop k = ')' :: tail) ∨
      (t = 2 ∧ ∃ q tail, r.drop k = q :: ')' :: tail ∧ isQuoteChar q = true) := by
  unfold idTermAt at h
  split at h
  · next tail heq =>
    injection h with h
    exact Or.inl ⟨h.symm, tail, heq⟩
  · next _ q tail _ heq =>
    by_cases hq : isQuoteChar q = true
    · rw [if_pos hq] at h
      injection h with h
      exact Or.inr ⟨h.symm, q, tail, heq, hq⟩
    · rw [if_neg hq] at h; cases h
  · cases h

theorem matchIdAfterQuote_spec {r : List Char} {pre : Nat} {m : NodeMatch}
    (h : matchIdAfterQuote r pre = some m) :
    ∃ k t, m = { len := pre + k + t, idvalue := some (r.take k) } ∧
      isValueChars (r.take k) = true ∧ k + t ≤ r.length ∧
      ((t = 1 ∧ ∃ tail, r.drop k = ')' :: tail) ∨
       (t = 2 ∧ ∃ q tail, r.drop k = q :: ')' :: tail ∧ isQuoteChar q = true)) := by
  obtain ⟨k, hk, hpk⟩ := searchDown_sound _ _ _ h
  by_cases h1 : isValueChars (r.take k) = true
  · rw [if_pos h1] at hpk
    cases ht : idTermAt r k with
    | none => rw [ht] at hpk; cases hpk
    | some t =>
      rw [ht] at hpk
      injection hpk with hpk
      have hspec := idTermAt_spec ht
      refine ⟨k, t, hpk.symm, h1, ?_, hspec⟩
      rcases hspec with ⟨_, tail, hdrop⟩ | ⟨_, q, tail, hdrop, _⟩
      · have := congrArg List.length hdrop
        simp [List.length_drop] at this
        omega
      · have := congrArg List.length hdrop
        simp [List.length_drop] at this
        omega
  · rw [if_neg h1] at hpk; cases hpk

theorem idNode_assemble {q1 rr : List Char} {m : NodeMatch}
    (hq1 : isOptQuoteTok q1 = true)
    (h : matchIdAfterQuote rr (3 + q1.length) = some m) :
    NodeTok (("id(".data ++ q1 ++ rr).take m.len) ∧ 1 ≤ m.len ∧
      m.len ≤ ("id(".data ++ q1 ++ rr).length := by
  obtain ⟨k, t, hm, hval, hkt, hterm⟩ := matchIdAfterQuote_spec h
  have hlen : m.len = 3 + q1.length + (k + t) := by rw [hm]; simp; omega
  have hpre : ("id(".data ++ q1).length = 3 + q1.length := by simp; omega
  have htake : ("id(".data ++ q1 ++ rr).take m.len
      = ("id(".data ++ q1) ++ rr.take (k + t) := by
    rw [hlen, ← hpre, take_append_len]
  have hsplit : rr.take (k + t) = rr.take k ++ (rr.drop k).take t := List.take_add ..
  rcases hterm with ⟨ht1, tail, hdrop⟩ | ⟨ht2, q, tail, hdrop, hq⟩
  · subst ht1
    have hfrag : (rr.drop k).take 1 = [')'] := by rw [hdrop]; rfl
    have : ("id(".data ++ q1 ++ rr).take m.len
        = "id(".data ++ (q1 ++ (rr.take k ++ ([] : List Char) ++ [')'])) := by
      rw [htake, hsplit, hfrag]
      simp
    rw [this]
    refine ⟨?_, by omega, ?_⟩
    · have := NodeTok.idNode q1 (rr.take k) [] hq1 (by rfl) hval
      simpa [List.append_assoc] using this
    · simp [hlen]
      omega
  · subst ht2
    have hfrag : (rr.drop k).take 2 = [q, ')'] := by rw [hdrop]; rfl
    have : ("id(".data ++ q1 ++ rr).take m.len
        = "id(".data ++ (q1 ++ (rr.take k ++ [q] ++ [')'])) := by
      rw [htake, hsplit, hfrag]
      simp
    rw [this]
    refine ⟨?_, by omega, ?_⟩
    · have hqq : isOptQuoteTok [q] = true := by
        simp [isOptQuoteTok, isQuoteTok, hq]
      have := NodeTok.idNode q1 (rr.take k) [q] hq1 hqq hval
      simpa [List.append_assoc] using this
    · simp [hlen]
      omega

theorem matchIdNode_sound {s : List Char} {m : NodeMatch}
    (h : matchIdNode s = some m) :
    NodeTok (s.take m.len) ∧ 1 ≤ m.len ∧ m.len ≤ s.length := by
  unfold matchIdNode at h
  split at h
  · next r =>
    rcases hr : r with _ | ⟨c, r1⟩
    · rw [hr] at h; cases h
    · rw [hr] at h
      replace h : (if isQuoteChar c = true
          then (matchIdAfterQuote r1 4).orElse fun _ => matchIdAfterQuote (c :: r1) 3
          else matchIdAfterQuote (c :: r1) 3) = some m := h
      by_cases hq : isQuoteChar c = true
      · rw [if_pos hq] at h
        cases hfirst : matchIdAfterQuote r1 4 with
        | some m' =>
          rw [hfirst] at h
          simp [Option.orElse] at h
          subst h
          have h4 : (4 : Nat) = 3 + ([c] : List Char).length := by simp
          have := @idNode_assemble [c] r1 _
            (by simp [isOptQuoteTok, isQuoteTok, hq]) (by rw [← h4]; exact hfirst)
          simpa using this
        | none =>
          rw [hfirst] at h
          simp [Option.orElse] at h
          have h3 : (3 : Nat) = 3 + ([] : List Char).length := by simp
          have := @idNode_assemble [] (c :: r1) _
            (by simp [isOptQuoteTok]) (by rw [← h3]; exact h)
          simpa using this
      · rw [if_neg hq] at h
        have h3 : (3 : Nat) = 3 + ([] : List Char).length := by simp
        have := @idNode_assemble [] (c :: r1) _
          (by simp [isOptQuoteTok]) (by rw [← h3]; exact h)
        simpa using this
  · cases h

theorem takeWhile_length_le (f : Char → Bool) (l : List Char) :
    (l.takeWhile f).length ≤ l.length := by
  have h := takeWhile_take f l
  have := congrArg List.length h
  simp at this
  omega

theorem drop_take_len (l : List Char) (m n : Nat) :
    (l.take (m + n)).drop m = (l.drop m).take n := by
  rw [List.drop_take, Nat.add_sub_cancel_left]

theorem attrCore_spec {r : List Char} {n : Nat} (h : attrCore r = some n) :
    1 ≤ n ∧ n ≤ r.length ∧ isAttrCore (r.take n) = true := by
  unfold attrCore at h
  split at h
  · next c cs =>
    by_cases hc : isAttrStart c = true
    · rw [if_pos hc] at h
      injection h with h
      subst h
      refine ⟨by omega, ?_, ?_⟩
      · have := takeWhile_length_le isAttrChar cs
        simp
        omega
      · have h1 : (c :: cs).take (1 + (cs.takeWhile isAttrChar).length)
            = c :: cs.take ((cs.takeWhile isAttrChar).length) := by
          rw [Nat.add_comm]
          rfl
        rw [h1, takeWhile_take]
        simp [isAttrCore, hc, List.all_takeWhile]
    · rw [if_neg hc] at h; cases h
  · cases h

/-- The attribute token consumed by a predicate alternative, with or
without a trailing `()`, satisfies the grammar's attribute shape. -/
theorem attr_with_extra {r1 : List Char} {n : Nat} (hcore : attrCore r1 = some n)
    (extra : Nat)
    (hx : extra = 0 ∨ (extra = 2 ∧ (r1.drop n).take 2 = ['(', ')'])) :
    isAttrTok (r1.take (n + extra)) = true ∧ 1 ≤ n + extra ∧
      n + extra ≤ r1.length := by
  obtain ⟨h1, h2, h3⟩ := attrCore_spec hcore
  rcases hx with rfl | ⟨rfl, hp⟩
  · simp only [Nat.add_zero]
    exact ⟨by simp [isAttrTok, h3], by omega, h2⟩
  · have hlen2 : 2 ≤ r1.length - n := by
      have := congrArg List.length hp
      simp [List.length_take, List.length_drop] at this
      omega
    have hbound : n + 2 ≤ r1.length := by omega
    have htk : (r1.take (n + 2)).length = n + 2 := by
      simp [List.length_take]
      omega
    have htt : (r1.take (n + 2)).take n = r1.take n := by
      rw [List.take_take]
      congr 1
      omega
    have htd : (r1.take (n + 2)).drop n = (r1.drop n).take 2 := drop_take_len ..
    refine ⟨?_, by omega, hbound⟩
    unfold isAttrTok
    rw [htk]
    have he : n + 2 - 2 = n := by omega
    rw [he, htt, htd, hp]
    simp [h3]

theorem matchedAltTail_sound {r : List Char} {ampLen n extra len : Nat}
    {a v : List Char}
    (hamp : isAmp (r.take ampLen) = true)
    (hamplen : (r.take ampLen).length = ampLen)
    (hattr : isAttrTok ((r.drop ampLen).take (n + extra)) = true)
    (hattrlen : n + extra ≤ (r.drop ampLen).length)
    (h : matchedAltTail r ampLen n extra = some (len, a, v)) :
    PredTok (('[' :: r).take len) ∧ 1 ≤ len ∧ len ≤ r.length + 1 := by
  unfold matchedAltTail at h
  split at h
  · next q rest heq =>
    by_cases hq : isQuoteChar q = true
    · rw [if_pos hq] at h
      cases hk : matchedValueSearch rest with
      | none => rw [hk] at h; cases h
      | some k =>
        rw [hk] at h
        obtain ⟨hkb, hkval, q2, tail, hkdrop, hq2⟩ := matchedValueSearch_spec hk
        injection h with h
        simp only [Prod.mk.injEq] at h
        obtain ⟨hlen, ha, hv⟩ := h
        subst hlen ha hv
        have hampbound : ampLen ≤ r.length := by
          have := hamplen
          simp [List.length_take] at this
          omega
        have hattrlen1 : n + extra ≤ r.length - ampLen := by
          have := hattrlen
          simpa [List.length_drop] using this
        have hlenheq : r.length - (ampLen + (n + extra)) = rest.length + 2 := by
          have := congrArg List.length heq
          simp [List.length_drop] at this
          omega
        have hkrest : rest.length - k = tail.length + 2 := by
          have := congrArg List.length hkdrop
          simpa [List.length_drop] using this
        have hm1 : 1 + ampLen + (n + extra) + 2 + k + 2
            = (ampLen + ((n + extra) + ((k + 2) + 2))) + 1 := by omega
        have ht0 : ('[' :: r).take ((ampLen + ((n + extra) + ((k + 2) + 2))) + 1)
            = '[' :: r.take (ampLen + ((n + extra) + ((k + 2) + 2))) := rfl
        have ht1 : r.take (ampLen + ((n + extra) + ((k + 2) + 2)))
            = r.take ampLen ++ (r.drop ampLen).take ((n + extra) + ((k + 2) + 2)) :=
          List.take_add ..
        have ht2 : (r.drop ampLen).take ((n + extra) + ((k + 2) + 2))
            = (r.drop ampLen).take (n + extra)
              ++ ((r.drop ampLen).drop (n + extra)).take ((k + 2) + 2) :=
          List.take_add ..
        have ht3 : ((r.drop ampLen).drop (n + extra)).take ((k + 2) + 2)
            = '=' :: q :: rest.take (k + 2) := by rw [heq]; rfl
        have ht4 : rest.take (k + 2) = rest.take k ++ (rest.drop k).take 2 :=
          List.take_add ..
        have ht5 : (rest.drop k).take 2 = [q2, ']'] := by rw [hkdrop]; rfl
        have hq1tok : isQuoteTok [q] = true := by simp [isQuoteTok, hq]
        have hq2tok : isQuoteTok [q2] = true := by simp [isQuoteTok, hq2]
        have hpt := PredTok.matchedPred (r.take ampLen) ((r.drop ampLen).take (n + extra))
          [q] (rest.take k) [q2] hamp hattr hq1tok hq2tok hkval
        refine ⟨?_, by omega, by omega⟩
        have hsh : ('[' :: r).take (1 + ampLen + (n + extra) + 2 + k + 2)
            = '[' :: (r.take ampLen ++ (r.drop ampLen).take (n + extra)
              ++ '=' :: ([q] ++ rest.take k ++ [q2] ++ [']'])) := by
          rw [hm1, ht0, ht1, ht2, ht3, ht4, ht5]
          simp
        rw [hsh]
        exact hpt
    · rw [if_neg hq] at h; cases h
  · cases h

theorem ampLenOf_spec (r : List Char) :
    isAmp (r.take (ampLenOf r)) = true ∧ (r.take (ampLenOf r)).length = ampLenOf r := by
  unfold ampLenOf
  split
  · next t => simp [isAmp]
  · simp [isAmp]

theorem matchMatchedAlt_sound {r : List Char} {len : Nat} {a v : List Char}
    (h : matchMatchedAlt r = some (len, a, v)) :
    PredTok (('[' :: r).take len) ∧ 1 ≤ len ∧ len ≤ r.length + 1 := by
  obtain ⟨hampT, hampL⟩ := ampLenOf_spec r
  unfold matchMatchedAlt at h
  cases hac : attrCore (r.drop (ampLenOf r)) with
  | none => rw [hac] at h; cases h
  | some n =>
    rw [hac] at h
    replace h : (if (((r.drop (ampLenOf r)).drop n).take 2 == ['(', ')']) = true then
        (matchedAltTail r (ampLenOf r) n 2).orElse
          fun _ => matchedAltTail r (ampLenOf r) n 0
      else matchedAltTail r (ampLenOf r) n 0) = some (len, a, v) := h
    by_cases hpp : (((r.drop (ampLenOf r)).drop n).take 2 == ['(', ')']) = true
    · rw [if_pos hpp] at h
      have hpeq : ((r.drop (ampLenOf r)).drop n).take 2 = ['(', ')'] := by
        simpa using hpp
      cases h2 : matchedAltTail r (ampLenOf r) n 2 with
      | some t =>
        rw [h2] at h
        simp [Option.orElse] at h
        subst h
        obtain ⟨ht, h1, h3⟩ := attr_with_extra hac 2 (Or.inr ⟨rfl, hpeq⟩)
        exact matchedAltTail_sound hampT hampL ht h3 h2
      | none =>
        rw [h2] at h
        simp [Option.orElse] at h
        obtain ⟨ht, h1, h3⟩ := attr_with_extra hac 0 (Or.inl rfl)
        exact matchedAltTail_sound hampT hampL ht h3 h
    · rw [if_neg hpp] at h
      obtain ⟨ht, h1, h3⟩ := attr_with_extra hac 0 (Or.inl rfl)
      exact matchedAltTail_sound hampT hampL ht h3 h

theorem containedAltTail_sound {r1 : List Char} {ampLen n extra len : Nat}
    {a v : List Char}
    (hamp : isAmp (r1.take ampLen) = true)
    (hamplen : (r1.take ampLen).length = ampLen)
    (hattr : isAttrTok ((r1.drop ampLen).take (n + extra)) = true)
    (hattrlen : n + extra ≤ (r1.drop ampLen).length)
    (h : containedAltTail r1 ampLen n extra = some (len, a, v)) :
    PredTok (('[' :: ("contains(".data ++ r1)).take len) ∧ 11 ≤ len ∧
      len ≤ r1.length + 10 := by
  unfold containedAltTail at h
  split at h
  · next rest heq =>
    split at h
    · next q rest2 heq2 =>
      by_cases hq : isQuoteChar q = true
      · rw [if_pos hq] at h
        cases hk : containedValueSearch rest2 with
        | none => rw [hk] at h; cases h
        | some k =>
          rw [hk] at h
          obtain ⟨hkb, hkval, q2, tail, hkdrop, hq2⟩ := containedValueSearch_spec hk
          injection h with h
          simp only [Prod.mk.injEq] at h
          obtain ⟨hlen, ha, hv⟩ := h
          subst hlen ha hv
          have hampbound : ampLen ≤ r1.length := by
            have := hamplen
            simp [List.length_take] at this
            omega
          have hattrlen1 : n + extra ≤ r1.length - ampLen := by
            have := hattrlen
            simpa [List.length_drop] using this
          have hlenheq : r1.length - (ampLen + (n + extra)) = rest.length + 1 := by
            have := congrArg List.length heq
            simp [List.length_drop] at this
            omega
          have hwsle : (rest.takeWhile isSpaceChar).length ≤ rest.length :=
            takeWhile_length_le _ _
          have hlenheq2 : rest.length - (rest.takeWhile isSpaceChar).length
              = rest2.length + 1 := by
            have := congrArg List.length heq2
            simp [List.length_drop] at this
            omega
          have hkrest : rest2.length - k = tail.length + 3 := by
            have := congrArg List.length hkdrop
            simpa [List.length_drop] using this
          have hm1 : 1 + 9 + ampLen + (n + extra) + 1
                + (rest.takeWhile isSpaceChar).length + 1 + k + 3
              = (9 + (ampLen + ((n + extra)
                + (((rest.takeWhile isSpaceChar).length + ((k + 3) + 1)) + 1)))) + 1 := by
            omega
          have ht0 : ('[' :: ("contains(".data ++ r1)).take ((9 + (ampLen + ((n + extra)
                + (((rest.takeWhile isSpaceChar).length + ((k + 3) + 1)) + 1)))) + 1)
              = '[' :: ("contains(".data ++ r1).take (9 + (ampLen + ((n + extra)
                + (((rest.takeWhile isSpaceChar).length + ((k + 3) + 1)) + 1)))) := rfl
          have h9 : ("contains(".data : List Char).length = 9 := rfl
          have ht1 : ("contains(".data ++ r1).take (9 + (ampLen + ((n + extra)
                + (((rest.takeWhile isSpaceChar).length + ((k + 3) + 1)) + 1))))
              = "contains(".data ++ r1.take (ampLen + ((n + extra)
                + (((rest.takeWhile isSpaceChar).length + ((k + 3) + 1)) + 1))) := by
            rw [← h9, take_append_len]
          have ht2 : r1.take (ampLen + ((n + extra)
                + (((rest.takeWhile isSpaceChar).length + ((k + 3) + 1)) + 1)))
              = r1.take ampLen ++ (r1.drop ampLen).take ((n + extra)
                + (((rest.takeWhile isSpaceChar).length + ((k + 3) + 1)) + 1)) :=
            List.take_add ..
          have ht3 : (r1.drop ampLen).take ((n + extra)
                + (((rest.takeWhile isSpaceChar).length + ((k + 3) + 1)) + 1))
              = (r1.drop ampLen).take (n + extra)
                ++ ((r1.drop ampLen).drop (n + extra)).take
                  (((rest.takeWhile isSpaceChar).length + ((k + 3) + 1)) + 1) :=
            List.take_add ..
          have ht4 : ((r1.drop ampLen).drop (n + extra)).take
                (((rest.takeWhile isSpaceChar).length + ((k + 3) + 1)) + 1)
              = ',' :: rest.take ((rest.takeWhile isSpaceChar).length + ((k + 3) + 1)) := by
            rw [heq]; rfl
          have ht5 : rest.take ((rest.takeWhile isSpaceChar).length + ((k + 3) + 1))
              = rest.takeWhile isSpaceChar
                ++ (rest.drop ((rest.takeWhile isSpaceChar).length)).take ((k + 3) + 1) := by
            rw [List.take_add, takeWhile_take]
          have ht6 : (rest.drop ((rest.takeWhile isSpaceChar).length)).take ((k + 3) + 1)
              = q :: rest2.take (k + 3) := by
            rw [heq2]; rfl
          have ht7 : rest2.take (k + 3) = rest2.take k ++ (rest2.drop k).take 3 :=
            List.take_add ..
          have ht8 : (rest2.drop k).take 3 = [q2, ')', ']'] := by
            rw [hkdrop]; rfl
          have hws : (rest.takeWhile isSpaceChar).all isSpaceChar = true :=
            List.all_takeWhile ..
          have hq1tok : isQuoteTok [q] = true := by simp [isQuoteTok, hq]
          have hq2tok : isQuoteTok [q2] = true := by simp [isQuoteTok, hq2]
          have hpt := PredTok.containedPred (r1.take ampLen)
            ((r1.drop ampLen).take (n + extra)) (rest.takeWhile isSpaceChar)
            [q] (rest2.take k) [q2] hamp hattr hws hq1tok hq2tok hkval
          refine ⟨?_, by omega, by omega⟩
          have hsh : ('[' :: ("contains(".data ++ r1)).take (1 + 9 + ampLen + (n + extra)
                + 1 + (rest.takeWhile isSpaceChar).length + 1 + k + 3)
              = '[' :: ("contains(".data ++ r1.take ampLen
                  ++ (r1.drop ampLen).take (n + extra) ++ ',' ::
                  (rest.takeWhile isSpaceChar ++ [q] ++ rest2.take k ++ [q2]
                    ++ [')', ']'])) := by
            rw [hm1, ht0, ht1, ht2, ht3, ht4, ht5, ht6, ht7, ht8]
            simp
          rw [hsh]
          exact hpt
      · rw [if_neg hq] at h; cases h
    · cases h
  · cases h

theorem matchContainedAlt_sound {r : List Char} {len : Nat} {a v : List Char}
    (h : matchContainedAlt r = some (len, a, v)) :
    PredTok (('[' :: r).take len) ∧ 1 ≤ len ∧ len ≤ r.length + 1 := by
  unfold matchContainedAlt at h
  by_cases hlw : leadsWith "contains(".data r = true
  · rw [if_pos hlw] at h
    obtain ⟨hlen9, htake9⟩ := leadsWith_take hlw
    have h9 : ("contains(".data : List Char).length = 9 := rfl
    rw [h9] at hlen9 htake9
    have hr : "contains(".data ++ r.drop 9 = r := by
      conv_rhs => rw [← List.take_append_drop 9 r]
      rw [htake9]
    have hdlen : (r.drop 9).length = r.length - 9 := by
      simp [List.length_drop]
    obtain ⟨hampT, hampL⟩ := ampLenOf_spec (r.drop 9)
    cases hac : attrCore ((r.drop 9).drop (ampLenOf (r.drop 9))) with
    | none => rw [hac] at h; cases h
    | some n =>
      rw [hac] at h
      replace h : (if ((((r.drop 9).drop (ampLenOf (r.drop 9))).drop n).take 2
            == ['(', ')']) = true then
          (containedAltTail (r.drop 9) (ampLenOf (r.drop 9)) n 2).orElse
            fun _ => containedAltTail (r.drop 9) (ampLenOf (r.drop 9)) n 0
        else containedAltTail (r.drop 9) (ampLenOf (r.drop 9)) n 0)
          = some (len, a, v) := h
      by_cases hpp : ((((r.drop 9).drop (ampLenOf (r.drop 9))).drop n).take 2
          == ['(', ')']) = true
      · rw [if_pos hpp] at h
        have hpeq : (((r.drop 9).drop (ampLenOf (r.drop 9))).drop n).take 2
            = ['(', ')'] := by simpa using hpp
        cases h2 : containedAltTail (r.drop 9) (ampLenOf (r.drop 9)) n 2 with
        | some t =>
          rw [h2] at h
          simp [Option.orElse] at h
          subst h
          obtain ⟨ht, h1b, h3⟩ := attr_with_extra hac 2 (Or.inr ⟨rfl, hpeq⟩)
          obtain ⟨hp, hl1, hl2⟩ := containedAltTail_sound hampT hampL ht h3 h2
          rw [hr] at hp
          exact ⟨hp, by omega, by omega⟩
        | none =>
          rw [h2] at h
          simp [Option.orElse] at h
          obtain ⟨ht, h1b, h3⟩ := attr_with_extra hac 0 (Or.inl rfl)
          obtain ⟨hp, hl1, hl2⟩ := containedAltTail_sound hampT hampL ht h3 h
          rw [hr] at hp
          exact ⟨hp, by omega, by omega⟩
      · rw [if_neg hpp] at h
        obtain ⟨ht, h1b, h3⟩ := attr_with_extra hac 0 (Or.inl rfl)
        obtain ⟨hp, hl1, hl2⟩ := containedAltTail_sound hampT hampL ht h3 h
        rw [hr] at hp
        exact ⟨hp, by omega, by omega⟩
  · rw [if_neg hlw] at h; cases h

theorem matchPred_matched_sound {r2 : List Char} {l : Nat} {a v : List Char}
    (h : matchPred r2 = .matchedP l a v) :
    PredTok (r2.take l) ∧ 1 ≤ l ∧ l ≤ r2.length := by
  unfold matchPred at h
  split at h
  · next r1 =>
    cases hm : matchMatchedAlt r1 with
    | some t =>
      obtain ⟨len, a2, v2⟩ := t
      rw [hm] at h
      injection h with h1 h2 h3
      subst h1 h2 h3
      obtain ⟨hp, hb1, hb2⟩ := matchMatchedAlt_sound hm
      exact ⟨hp, hb1, by simp only [List.length_cons]; omega⟩
    | none =>
      rw [hm] at h
      cases hc : matchContainedAlt r1 with
      | some t =>
        obtain ⟨len, a2, v2⟩ := t
        rw [hc] at h
        cases h
      | none => rw [hc] at h; cases h
  · cases h

theorem matchPred_contained_sound {r2 : List Char} {l : Nat} {a v : List Char}
    (h : matchPred r2 = .containedP l a v) :
    PredTok (r2.take l) ∧ 1 ≤ l ∧ l ≤ r2.length := by
  unfold matchPred at h
  split at h
  · next r1 =>
    cases hm : matchMatchedAlt r1 with
    | some t =>
      obtain ⟨len, a2, v2⟩ := t
      rw [hm] at h
      cases h
    | none =>
      rw [hm] at h
      cases hc : matchContainedAlt r1 with
      | some t =>
        obtain ⟨len, a2, v2⟩ := t
        rw [hc] at h
        injection h with h1 h2 h3
        subst h1 h2 h3
        obtain ⟨hp, hb1, hb2⟩ := matchContainedAlt_sound hc
        exact ⟨hp, hb1, by simp only [List.length_cons]; omega⟩
      | none => rw [hc] at h; cases h
  · cases h

theorem matchNth_sound {r : List Char} {nl : Nat} {ds : List Char}
    (h : matchNth r = some (nl, ds)) :
    NthTok (r.take nl) ∧ 1 ≤ nl ∧ nl ≤ r.length := by
  unfold matchNth at h
  split at h
  · next r1 =>
    by_cases hemp : (r1.takeWhile Char.isDigit).isEmpty = true
    · rw [if_pos hemp] at h; cases h
    · rw [if_neg hemp] at h
      split at h
      · next tl heq =>
        injection h with h
        simp only [Prod.mk.injEq] at h
        obtain ⟨h1, h2⟩ := h
        subst h1 h2
        have hdlen : (r1.takeWhile Char.isDigit).length ≤ r1.length :=
          takeWhile_length_le _ _
        have hrest : r1.length - (r1.takeWhile Char.isDigit).length = tl.length + 1 := by
          have := congrArg List.length heq
          simpa [List.length_drop] using this
        have hne : r1.takeWhile Char.isDigit ≠ [] := by
          simpa [List.isEmpty_iff] using hemp
        have hds : (r1.takeWhile Char.isDigit).all Char.isDigit = true :=
          List.all_takeWhile ..
        have hnt := NthTok.nth (r1.takeWhile Char.isDigit) hne hds
        have hm1 : 2 + (r1.takeWhile Char.isDigit).length
            = ((r1.takeWhile Char.isDigit).length + 1) + 1 := by omega
        have ht0 : ('[' :: r1).take (((r1.takeWhile Char.isDigit).length + 1) + 1)
            = '[' :: r1.take ((r1.takeWhile Char.isDigit).length + 1) := rfl
        have ht1 : r1.take ((r1.takeWhile Char.isDigit).length + 1)
            = r1.takeWhile Char.isDigit
              ++ (r1.drop ((r1.takeWhile Char.isDigit).length)).take 1 := by
          rw [List.take_add, takeWhile_take]
        have ht2 : (r1.drop ((r1.takeWhile Char.isDigit).length)).take 1 = [']'] := by
          rw [heq]; rfl
        refine ⟨?_, by omega, by simp only [List.length_cons]; omega⟩
        have hsh : ('[' :: r1).take (2 + (r1.takeWhile Char.isDigit).length)
            = '[' :: (r1.takeWhile Char.isDigit ++ [']']) := by
          rw [hm1, ht0, ht1, ht2]
        rw [hsh]
        exact hnt
      · cases h
  · cases h

theorem navLenOf_spec (s1 : List Char) :
    isNavTok (('/' :: s1).take (navLenOf s1)) = true ∧ 1 ≤ navLenOf s1 ∧
      navLenOf s1 ≤ s1.length + 1 := by
  unfold navLenOf
  split
  · next t =>
    refine ⟨rfl, by omega, ?_⟩
    simp only [List.length_cons]
    omega
  · exact ⟨rfl, by omega, by omega⟩

theorem tagInfoOf_spec {r1 : List Char} {tagLen : Nat} {tag : List Char}
    (h : tagInfoOf r1 = some (tagLen, tag)) :
    isTagTok tag = true ∧ r1.take tagLen = tag ∧ 1 ≤ tagLen ∧ tagLen ≤ r1.length := by
  unfold tagInfoOf at h
  split at h
  · next t =>
    injection h with h
    simp only [Prod.mk.injEq] at h
    obtain ⟨h1, h2⟩ := h
    subst h1 h2
    exact ⟨rfl, rfl, by omega, by simp only [List.length_cons]; omega⟩
  · rename_i c cs hover
    by_cases hc : isTagStart c = true
    · rw [if_pos hc] at h
      injection h with h
      simp only [Prod.mk.injEq] at h
      obtain ⟨h1, h2⟩ := h
      subst h1 h2
      have hall := takeWhileN_all isTagChar 10 cs
      have hle := takeWhileN_length_le isTagChar 10 cs
      have hlen : (takeWhileN isTagChar 10 cs).length ≤ cs.length := by
        have := congrArg List.length (takeWhileN_take isTagChar 10 cs)
        simp [List.length_take] at this
        omega
      refine ⟨?_, ?_, by omega, by simp only [List.length_cons]; omega⟩
      · simp [isTagTok, hc, hall, hle]
      · have hstep : (c :: cs).take (1 + (takeWhileN isTagChar 10 cs).length)
            = c :: cs.take ((takeWhileN isTagChar 10 cs).length) := by
          rw [Nat.add_comm]; rfl
        rw [hstep, takeWhileN_take]
    · rw [if_neg hc] at h; cases h
  · cases h

theorem predLenOf_sound (r2 : List Char) :
    PredTok (r2.take (predLenOf (matchPred r2))) ∧
      predLenOf (matchPred r2) ≤ r2.length := by
  cases hpm : matchPred r2 with
  | matchedP l a v =>
    obtain ⟨hp, h1, h2⟩ := matchPred_matched_sound hpm
    exact ⟨by simpa [predLenOf] using hp, by simpa [predLenOf] using h2⟩
  | containedP l a v =>
    obtain ⟨hp, h1, h2⟩ := matchPred_contained_sound hpm
    exact ⟨by simpa [predLenOf] using hp, by simpa [predLenOf] using h2⟩
  | noPred =>
    exact ⟨by simpa [predLenOf] using PredTok.noneP, by simp [predLenOf]⟩

theorem nthLenOf_sound (r3 : List Char) :
    NthTok (r3.take (((matchNth r3).map Prod.fst).getD 0)) ∧
      ((matchNth r3).map Prod.fst).getD 0 ≤ r3.length := by
  cases hni : matchNth r3 with
  | none => exact ⟨by simpa using NthTok.noneN, by simp⟩
  | some t =>
    obtain ⟨nl, ds⟩ := t
    obtain ⟨hn, h1, h2⟩ := matchNth_sound hni
    exact ⟨by simpa using hn, by simpa using h2⟩

theorem navNode_assemble {s : List Char} {NL tagLen PL TL : Nat} {tag : List Char}
    (hnavTok : isNavTok (s.take NL) = true)
    (hnavB : NL ≤ s.length)
    (htagTok : isTagTok tag = true)
    (htagTake : (s.drop NL).take tagLen = tag)
    (htagB : tagLen ≤ (s.drop NL).length)
    (hpredTok : PredTok (((s.drop NL).drop tagLen).take PL))
    (hpredB : PL ≤ ((s.drop NL).drop tagLen).length)
    (hnthTok : NthTok ((((s.drop NL).drop tagLen).drop PL).take TL))
    (hnthB : TL ≤ (((s.drop NL).drop tagLen).drop PL).length) :
    NodeTok (s.take (NL + tagLen + PL + TL)) ∧
      NL + tagLen + PL + TL ≤ s.length := by
  have hsum : NL + tagLen + PL + TL = NL + (tagLen + (PL + TL)) := by omega
  have ht1 : s.take (NL + (tagLen + (PL + TL)))
      = s.take NL ++ (s.drop NL).take (tagLen + (PL + TL)) := List.take_add ..
  have ht2 : (s.drop NL).take (tagLen + (PL + TL))
      = (s.drop NL).take tagLen ++ ((s.drop NL).drop tagLen).take (PL + TL) :=
    List.take_add ..
  have ht3 : ((s.drop NL).drop tagLen).take (PL + TL)
      = ((s.drop NL).drop tagLen).take PL
        ++ (((s.drop NL).drop tagLen).drop PL).take TL := List.take_add ..
  have hnode := NodeTok.navNode (s.take NL) tag
    (((s.drop NL).drop tagLen).take PL)
    ((((s.drop NL).drop tagLen).drop PL).take TL)
    hnavTok htagTok hpredTok hnthTok
  constructor
  · rw [hsum, ht1, ht2, ht3, htagTake]
    have hassoc : s.take NL ++ (tag ++ (((s.drop NL).drop tagLen).take PL
          ++ (((s.drop NL).drop tagLen).drop PL).take TL))
        = s.take NL ++ tag ++ ((s.drop NL).drop tagLen).take PL
          ++ (((s.drop NL).drop tagLen).drop PL).take TL := by
      simp
    rw [hassoc]
    exact hnode
  · have e1 : (s.drop NL).length = s.length - NL := by simp
    have e2 : ((s.drop NL).drop tagLen).length = s.length - NL - tagLen := by
      simp [List.length_drop]
      omega
    have e3 : (((s.drop NL).drop tagLen).drop PL).length
        = s.length - NL - tagLen - PL := by
      simp [List.length_drop]
      omega
    omega

theorem matchNavNode_sound {s : List Char} {m : NodeMatch}
    (h : matchNavNode s = some m) :
    NodeTok (s.take m.len) ∧ 1 ≤ m.len ∧ m.len ≤ s.length := by
  unfold matchNavNode at h
  split at h
  · next s1 =>
    cases hti : tagInfoOf (('/' :: s1).drop (navLenOf s1)) with
    | none => rw [hti] at h; cases h
    | some tl =>
      obtain ⟨tagLen, tag⟩ := tl
      rw [hti] at h
      replace h : some (navNodeFrom ('/' :: s1) (navLenOf s1) tagLen tag
          (matchPred ((('/' :: s1).drop (navLenOf s1)).drop tagLen))
          (matchNth (((('/' :: s1).drop (navLenOf s1)).drop tagLen).drop
            (predLenOf (matchPred ((('/' :: s1).drop (navLenOf s1)).drop tagLen))))))
          = some m := h
      injection h with h
      subst h
      obtain ⟨hnavTok, hnav1, hnavB⟩ := navLenOf_spec s1
      obtain ⟨htagTok, htagTake, htag1, htagB⟩ := tagInfoOf_spec hti
      obtain ⟨hpredTok, hpredB⟩ :=
        predLenOf_sound ((('/' :: s1).drop (navLenOf s1)).drop tagLen)
      obtain ⟨hnthTok, hnthB⟩ :=
        nthLenOf_sound (((('/' :: s1).drop (navLenOf s1)).drop tagLen).drop
          (predLenOf (matchPred ((('/' :: s1).drop (navLenOf s1)).drop tagLen))))
      have hnavB2 : navLenOf s1 ≤ ('/' :: s1).length := by
        simp only [List.length_cons]
        omega
      obtain ⟨hnode, hbound⟩ := navNode_assemble hnavTok hnavB2 htagTok htagTake
        htagB hpredTok hpredB hnthTok hnthB
      simp only [navNodeFrom]
      exact ⟨hnode, by omega, hbound⟩
  · cases h

theorem matchNode_sound {s : List Char} {m : NodeMatch} (h : matchNode s = some m) :
    NodeTok (s.take m.len) ∧ 1 ≤ m.len ∧ m.len ≤ s.length := by
  unfold matchNode at h
  cases hi : matchIdNode s with
  | some m2 =>
    rw [hi] at h
    simp [Option.orElse] at h
    subst h
    exact matchIdNode_sound hi
  | none =>
    rw [hi] at h
    simp [Option.orElse] at h
    exact matchNavNode_sound h

theorem get_raw_css_loop_sound (orig : List Char) :
    ∀ fuel s css attrPrev first out,
      get_raw_css_loop orig fuel s css attrPrev first = .ok out →
      XpathNodes s := by
  intro fuel
  induction fuel with
  | zero =>
    intro s css attrPrev first out h
    cases s with
    | nil => exact XpathNodes.nil
    | cons c cs => simp [get_raw_css_loop] at h
  | succ fuel ih =>
    intro s css attrPrev first out h
    cases s with
    | nil => exact XpathNodes.nil
    | cons c cs =>
      replace h : (match matchNode (c :: cs) with
          | none => (.error (.xpath ("Invalid or unsupported Xpath: "
              ++ String.mk orig)) : Except XErr (List Char))
          | some m =>
            get_raw_css_loop orig fuel ((c :: cs).drop m.len)
              (css ++ (nodeCss m first attrPrev).1) (nodeCss m first attrPrev).2
              false) = .ok out := h
      cases hm : matchNode (c :: cs) with
      | none => rw [hm] at h; cases h
      | some m =>
        rw [hm] at h
        obtain ⟨hnode, h1, h2⟩ := matchNode_sound hm
        have hrest := ih ((c :: cs).drop m.len) _ _ _ _ h
        have hsplit : (c :: cs).take m.len ++ (c :: cs).drop m.len = c :: cs :=
          List.take_append_drop ..
        have hne : (c :: cs).take m.len ≠ [] := by
          cases hml : m.len with
          | zero => omega
          | succ k => simp
        have hall := XpathNodes.cons _ _ hnode hne hrest
        rw [hsplit] at hall
        exact hall

theorem get_raw_css_loop_error_shape (orig : List Char) :
    ∀ fuel s css attrPrev first e,
      get_raw_css_loop orig fuel s css attrPrev first = .error e →
      e = .xpath ("Invalid or unsupported Xpath: " ++ String.mk orig) := by
  intro fuel
  induction fuel with
  | zero =>
    intro s css attrPrev first e h
    cases s with
    | nil => simp [get_raw_css_loop] at h
    | cons c cs =>
      replace h : (.error (.xpath ("Invalid or unsupported Xpath: "
          ++ String.mk orig)) : Except XErr (List Char)) = .error e := h
      injection h with h
      exact h.symm
  | succ fuel ih =>
    intro s css attrPrev first e h
    cases s with
    | nil => simp [get_raw_css_loop] at h
    | cons c cs =>
      replace h : (match matchNode (c :: cs) with
          | none => (.error (.xpath ("Invalid or unsupported Xpath: "
              ++ String.mk orig)) : Except XErr (List Char))
          | some m =>
            get_raw_css_loop orig fuel ((c :: cs).drop m.len)
              (css ++ (nodeCss m first attrPrev).1) (nodeCss m first attrPrev).2
              false) = .error e := h
      cases hm : matchNode (c :: cs) with
      | none =>
        rw [hm] at h
        injection h with h
        exact h.symm
      | some m =>
        rw [hm] at h
        exact ih ((c :: cs).drop m.len) _ _ _ _ h

theorem nodeTok_head {n : List Char} (h : NodeTok n) :
    ∃ t, n = 'i' :: t ∨ n = '/' :: t := by
  cases h with
  | idNode q1 v q2 hq1 hq2 hv =>
    exact ⟨'d' :: '(' :: (q1 ++ v ++ q2 ++ [')']), Or.inl rfl⟩
  | navNode nav tag pred nth hnav htag hpred hnth =>
    have hn2 : nav = ['/'] ∨ nav = ['/', '/'] := by
      simpa [isNavTok] using hnav
    rcases hn2 with rfl | rfl
    · exact ⟨tag ++ pred ++ nth, Or.inr (by simp)⟩
    · exact ⟨'/' :: (tag ++ pred ++ nth), Or.inr (by simp)⟩

theorem xpathNodes_head {s : List Char} (h : XpathNodes s) :
    s = [] ∨ ∃ t, s = 'i' :: t ∨ s = '/' :: t := by
  cases h with
  | nil => exact Or.inl rfl
  | cons n rest hn hne hrest =>
    obtain ⟨t, ht | ht⟩ := nodeTok_head hn
    · subst ht; exact Or.inr ⟨t ++ rest, Or.inl rfl⟩
    · subst ht; exact Or.inr ⟨t ++ rest, Or.inr rfl⟩

/-- C8: any input string whose three special-case early paths do not fire,
and whose pre-pass output `p` lies outside the constrained node grammar
`XpathNodes`, makes `convert_xpath_to_css` return the hard `XpathException`
failure rather than a best-effort result. -/
theorem c8_unmatched_xpath_raises (s : String) (p : List Char)
    (h1 : convertEarlyPath (pyReplace s.data " = '".data "='".data) = false)
    (h2 : xpathPrepass (pyReplace s.data " = '".data "='".data) = .ok p)
    (h3 : ¬ XpathNodes p) :
    isXpathFailure (convert_xpath_to_css s) = true := by
  unfold convertEarlyPath at h1
  rw [Bool.or_eq_false_iff, Bool.or_eq_false_iff] at h1
  obtain ⟨⟨he1, he2⟩, he3⟩ := h1
  have he1n : convertEdgeCase1 (pyReplace s.data " = '".data "='".data) = none := by
    cases hx : convertEdgeCase1 (pyReplace s.data " = '".data "='".data) with
    | none => rfl
    | some c => rw [hx] at he1; simp at he1
  have he2n : matchAndPattern1 (pyReplace s.data " = '".data "='".data) = none := by
    cases hx : matchAndPattern1 (pyReplace s.data " = '".data "='".data) with
    | none => rfl
    | some c => rw [hx] at he2; simp at he2
  have he3n : matchAndPattern2 (pyReplace s.data " = '".data "='".data) = none := by
    cases hx : matchAndPattern2 (pyReplace s.data " = '".data "='".data) with
    | none => rfl
    | some c => rw [hx] at he3; simp at he3
  unfold convert_xpath_to_css
  rw [he1n, he2n, he3n, h2]
  show isXpathFailure (match get_raw_css_from_xpath p with
    | .error e => (.error e : Except XErr String)
    | .ok rawCss => .ok (String.mk (final_replacements (attr_defs_pass rawCss)))) = true
  cases hg : get_raw_css_from_xpath p with
  | ok out =>
    unfold get_raw_css_from_xpath at hg
    exact absurd (get_raw_css_loop_sound p p.length p [] [] true out hg) h3
  | error e =>
    unfold get_raw_css_from_xpath at hg
    have hshape := get_raw_css_loop_error_shape p p.length p [] [] true e hg
    subst hshape
    rfl

/-- Witness for C8: the input `hello` (no leading slash, no `id(`) is
outside the grammar, its early paths do not fire and its pre-passes keep
it unchanged, so translation is the hard failure. -/
theorem c8_unmatched_xpath_witness :
    isXpathFailure (convert_xpath_to_css "hello") = true :=
  c8_unmatched_xpath_raises "hello" "hello".data (by rfl) (by rfl)
    (fun hcon => by
      have hh : List.head? ("hello".data) = some 'h' := by decide
      rcases xpathNodes_head hcon with h | ⟨t, h | h⟩
      · rw [h, List.head?_nil] at hh
        cases hh
      · rw [h, List.head?_cons] at hh
        injection hh with hh
        exact absurd hh (by decide)
      · rw [h, List.head?_cons] at hh
        injection hh with hh
        exact absurd hh (by decide))

/-- C7: the four literal translator cases: `div#x`, `.a.b`,
`a:contains("Sign in")` and `button[type="submit"]:nth-of-type(2)`. -/
theorem c7_translator_literal_cases :
    convert_xpath_to_css "//div[@id='x']" = .ok "div#x" ∧
    convert_xpath_to_css "//*[@class='a b']" = .ok ".a.b" ∧
    convert_xpath_to_css "//a[contains(text(),'Sign in')]"
      = .ok "a:contains(\"Sign in\")" ∧
    convert_xpath_to_css "(//button[@type='submit'])[2]"
      = .ok "button[type=\"submit\"]:nth-of-type(2)" := by
  refine ⟨rfl, rfl, rfl, rfl⟩

/-- Helper: with the deadline check passing (`tCheck ≤ deadline`) the
check function is false, and conversely. -/
theorem check_false_iff (d : Deadline) (hlimit : d.timeLimitMs ≠ 0) (nowMs : Nat) :
    check_if_time_limit_exceeded (some d) nowMs = false
      ↔ nowMs ≤ d.startTimeMs + d.timeLimitMs := by
  simp [check_if_time_limit_exceeded, hlimit]

/-- Helper: when every iteration sleeps at least `step` milliseconds before
the next deadline check, the check times grow linearly. -/
theorem tCheck_lower_bound (times : Nat → IterTimes) (startMs step : Nat)
    (hstart : startMs ≤ (times 0).tCheck)
    (hmono : ∀ x, (times x).tCheck ≤ (times x).tNow)
    (hsleep : ∀ x, (times x).tNow + step ≤ (times (x + 1)).tCheck) :
    ∀ x, startMs + x * step ≤ (times x).tCheck := by
  intro x
  induction x with
  | zero => simpa using hstart
  | succ n ih =>
    have h1 := hmono n
    have h2 := hsleep n
    have h3 : startMs + (n + 1) * step = (startMs + n * step) + step := by ring
    omega

/-- Helper: the presence-wait loop under an expiring deadline: every state
the loop can actually reach with the deadline not yet observed ends in the
deadline-raised outcome when the probe never succeeds and the deadline
expires strictly before the local stop time. -/
theorem wait_present_loop_deadline_raised
    (d : Deadline) (found : Nat → Bool) (times : Nat → IterTimes)
    (timeout startMs : Nat)
    (htimeout : 1 ≤ timeout)
    (hstart : startMs ≤ (times 0).tCheck)
    (hmono : ∀ x, (times x).tCheck ≤ (times x).tNow)
    (hsleep : ∀ x, (times x).tNow + 200 * timeout ≤ (times (x + 1)).tCheck)
    (hlimit : d.timeLimitMs ≠ 0)
    (hdl : d.startTimeMs + d.timeLimitMs < startMs + timeout * 1000)
    (hfail : ∀ x, found x = false)
    (hnostraddle : ∀ x, (times x).tCheck ≤ d.startTimeMs + d.timeLimitMs →
      (times x).tNow < startMs + timeout * 1000) :
    ∀ r x, r + x = timeout * 10 →
      (x = 0 ∨ (times (x - 1)).tCheck ≤ d.startTimeMs + d.timeLimitMs) →
      (wait_present_loop (some d) found times (startMs + timeout * 1000) r x).isDeadlineRaised
        = true := by
  intro r
  induction r with
  | zero =>
    intro x hx hinv
    exfalso
    have hx10 : x = timeout * 10 := by omega
    have hxpos : x ≠ 0 := by
      subst hx10
      have : 10 ≤ timeout * 10 := by omega
      omega
    rcases hinv with h | h
    · exact hxpos h
    · have hlow := tCheck_lower_bound times startMs (200 * timeout) hstart hmono hsleep (x - 1)
      have h5 : 5 * (200 * timeout) ≤ (x - 1) * (200 * timeout) := by
        apply Nat.mul_le_mul_right
        omega
      have h6 : 5 * (200 * timeout) = timeout * 1000 := by ring
      omega
  | succ r ih =>
    intro x hx hinv
    by_cases hc : check_if_time_limit_exceeded (some d) (times x).tCheck = true
    · simp [wait_present_loop, hc, PresentOutcome.isDeadlineRaised]
    · have hcf : check_if_time_limit_exceeded (some d) (times x).tCheck = false := by
        simpa using hc
      have hle : (times x).tCheck ≤ d.startTimeMs + d.timeLimitMs :=
        (check_false_iff d hlimit _).mp hcf
      have hnow := hnostraddle x hle
      have hnotstop : ¬ (times x).tNow ≥ startMs + timeout * 1000 := by omega
      simp only [wait_present_loop, hcf, Bool.false_eq_true, if_false, hfail x,
        hnotstop, if_true]
      have := ih (x + 1) (by omega) (Or.inr (by simpa using hle))
      simpa using this

/-- C3 (code bug): whenever the test-wide deadline expires strictly before
the local timeout of a `wait_for_element_present`, the per-iteration
deadline check does end the wait — the outcome is the deadline raise, never
timed-out — but what the entered expiry branch raises is `TypeError`, from
`float(int(time_limit))` applied to the imported `StashKey` at shared.py
line 213, and never the `TimeLimitExceededException` the claim names: that
`raise` is unreachable.  The timing model: each iteration reads the clock
at the deadline check and after the probe; `state_message` sleeps
`timeout * 0.2` seconds between iterations; a probe that straddles both the
deadline expiry and the local stop instant in one iteration is excluded
(the check is cooperative and only runs at iteration boundaries). -/
theorem c3_deadline_expiry_type_error
    (d : Deadline) (found : Nat → Bool) (times : Nat → IterTimes)
    (timeout startMs : Nat)
    (htimeout : 1 ≤ timeout)
    (hstart : startMs ≤ (times 0).tCheck)
    (hmono : ∀ x, (times x).tCheck ≤ (times x).tNow)
    (hsleep : ∀ x, (times x).tNow + 200 * timeout ≤ (times (x + 1)).tCheck)
    (hlimit : d.timeLimitMs ≠ 0)
    (hdl : d.startTimeMs + d.timeLimitMs < startMs + timeout * 1000)
    (hfail : ∀ x, found x = false)
    (hnostraddle : ∀ x, (times x).tCheck ≤ d.startTimeMs + d.timeLimitMs →
      (times x).tNow < startMs + timeout * 1000) :
    (wait_for_element_present (some d) found times timeout startMs).isDeadlineRaised = true ∧
    (wait_for_element_present (some d) found times timeout startMs).isTimedOut = false ∧
    deadline_expiry_raise = DeadlineRaise.typeError ∧
    ∀ msg : String, deadline_expiry_raise ≠ DeadlineRaise.timeLimitExceeded msg := by
  have h := wait_present_loop_deadline_raised d found times timeout startMs htimeout hstart
    hmono hsleep hlimit hdl hfail hnostraddle (timeout * 10) 0 (by omega) (Or.inl rfl)
  have notTimed : ∀ o : PresentOutcome, o.isDeadlineRaised = true → o.isTimedOut = false := by
    intro o ho
    cases o <;> simp_all [PresentOutcome.isDeadlineRaised, PresentOutcome.isTimedOut]
  refine ⟨h, notTimed _ h, rfl, ?_⟩
  intro msg
  simp [deadline_expiry_raise, pyIntTL]

/-- C3 witness: a concrete run (timeout 1 s, test deadline 500 ms, probes
200 ms apart, element never present) ends in the deadline raise — the
`TypeError` of the expiry branch — and not in the timed-out outcome. -/
theorem c3_deadline_expiry_type_error_witness :
    (wait_for_element_present (some ⟨0, 500⟩) (fun _ => false)
      (fun x => ⟨x * 200, x * 200⟩) 1 0).isDeadlineRaised = true ∧
    (wait_for_element_present (some ⟨0, 500⟩) (fun _ => false)
      (fun x => ⟨x * 200, x * 200⟩) 1 0).isTimedOut = false ∧
    deadline_expiry_raise = DeadlineRaise.typeError :=
  have h := c3_deadline_expiry_type_error ⟨0, 500⟩ (fun _ => false)
    (fun x => ⟨x * 200, x * 200⟩) 1 0
    (by decide) (by decide) (fun _ => le_refl _)
    (fun x => by simp; omega) (by decide) (by decide) (fun _ => rfl)
    (fun x => by simp; omega)
  ⟨h.1, h.2.1, h.2.2.1⟩

/-- Helper: with a matching exception on every attempt and the overall
timeout never exceeded, `__retry_internal` with `tries = t ≥ 1` performs
exactly `t` calls, sleeps the backoff schedule between them, and re-raises
the last caught error when the tries are exhausted. -/
theorem retry_internal_exhausts {ε α : Type} (es : Nat → ε) (isMatch : ε → Bool)
    (now : Nat → Nat) (start timeoutMs : Nat) (jit : Nat → ℚ) (backoff : ℚ)
    (maxD : Option ℚ)
    (hm : ∀ j, isMatch (es j) = true)
    (htime : ∀ j, now j ≤ start + timeoutMs) :
    ∀ t, 1 ≤ t → ∀ fuel k d, t ≤ fuel →
      retry_internal_loop (α := α) (fun j => .raised (es j)) isMatch now start timeoutMs
          jit backoff maxD fuel (t : Int) d k
        = ⟨.raised (es (k + t - 1)), t, backoff_delays backoff jit maxD d k (t - 1)⟩ := by
  intro t
  induction t with
  | zero => omega
  | succ t' ih =>
    intro _ fuel k d hfuel
    obtain ⟨fuel', rfl⟩ : ∃ f', fuel = f' + 1 := ⟨fuel - 1, by omega⟩
    have htne : ((t' + 1 : Nat) : Int) ≠ 0 := by exact_mod_cast Nat.succ_ne_zero t'
    have htime' : ¬ now k - start > timeoutMs := by
      have := htime k
      omega
    by_cases ht0 : t' = 0
    · subst ht0
      simp only [retry_internal_loop, htne, if_false, hm k, Bool.not_true,
        Bool.false_eq_true]
      norm_num
      rfl
    · have htr1 : ((t' + 1 : Nat) : Int) - 1 ≠ 0 := by
        have : ((t' + 1 : Nat) : Int) - 1 = (t' : Int) := by push_cast; ring
        rw [this]
        exact_mod_cast ht0
      have hcast : ((t' + 1 : Nat) : Int) - 1 = ((t' : Nat) : Int) := by push_cast; ring
      have htcast0 : ((t' : Nat) : Int) ≠ 0 := by exact_mod_cast ht0
      have hrec := ih (by omega) fuel' (k + 1)
        (next_delay backoff jit maxD d k) (by omega)
      simp only [retry_internal_loop, htne, if_false, hm k, Bool.not_true,
        Bool.false_eq_true, htr1, htime', hcast, htcast0]
      rw [hrec]
      have h1 : k + 1 + t' - 1 = k + (t' + 1) - 1 := by omega
      obtain ⟨t'', rfl⟩ : ∃ u, t' = u + 1 := ⟨t' - 1, by omega⟩
      simp [backoff_delays, h1]

/-- C9: the `__retry_internal` contract.  (1) An exception outside the
configured set propagates at once: one call, no sleep.  (2) With matching
exceptions on every attempt and the overall timeout never exceeded,
`tries = t` makes exactly `t` calls, sleeping the schedule that multiplies
the delay by the backoff factor, adds the jitter and clamps to the maximum
delay, and re-raises the last caught error.  (3) When the elapsed time
exceeds the overall timeout at an attempt that still had tries left, the
caught error is re-raised at once. -/
theorem c9_retry_contract {ε α : Type} (isMatch : ε → Bool) (now : Nat → Nat)
    (start timeoutMs : Nat) (jit : Nat → ℚ) (backoff : ℚ) (maxD : Option ℚ)
    (d : ℚ) (e : ε) (es : Nat → ε) (t fuel : Nat) (tries : Int) (k : Nat) :
    (isMatch e = false → tries ≠ 0 →
      retry_internal_loop (α := α) (fun _ => .raised e) isMatch now start timeoutMs jit
          backoff maxD (fuel + 1) tries d k
        = ⟨.raised e, 1, []⟩) ∧
    ((∀ j, isMatch (es j) = true) → (∀ j, now j ≤ start + timeoutMs) →
      1 ≤ t → t ≤ fuel →
      retry_internal_loop (α := α) (fun j => .raised (es j)) isMatch now start timeoutMs
          jit backoff maxD fuel (t : Int) d k
        = ⟨.raised (es (k + t - 1)), t, backoff_delays backoff jit maxD d k (t - 1)⟩) ∧
    (isMatch (es k) = true → now k - start > timeoutMs → tries ≠ 0 → tries - 1 ≠ 0 →
      retry_internal_loop (α := α) (fun j => .raised (es j)) isMatch now start timeoutMs
          jit backoff maxD (fuel + 1) tries d k
        = ⟨.raised (es k), 1, []⟩) := by
  refine ⟨?_, ?_, ?_⟩
  · intro hnm htr
    simp [retry_internal_loop, htr, hnm]
  · intro hm htime ht hfuel
    exact retry_internal_exhausts es isMatch now start timeoutMs jit backoff maxD
      hm htime t ht fuel k d hfuel
  · intro hmk htov htr htr1
    simp [retry_internal_loop, htr, hmk, htr1, htov]

/-- C9 witness: three retries at backoff 2, jitter one half, maximum delay
4 — three calls, sleeps 1 then 5/2, the last error re-raised. -/
theorem c9_retry_contract_witness :
    retry_internal_loop (α := Nat) (fun j => CallResult.raised ((fun _ => (0 : Nat)) j))
        (fun e => decide (e = 0)) (fun _ => 5) 5 1000 (fun _ => (1 : ℚ) / 2) 2 (some 4)
        3 ((3 : Nat) : Int) 1 0
      = ⟨RetryOutcome.raised 0, 3, [1, 5 / 2]⟩ := by
  have h := (c9_retry_contract (α := Nat) (fun e => decide (e = 0)) (fun _ => 5) 5 1000
    (fun _ => (1 : ℚ) / 2) 2 (some 4) 1 0 (fun _ => (0 : Nat)) 3 3 3 0).2.1
    (fun _ => by decide) (fun _ => by omega) (by omega) (by omega)
  rw [h]
  norm_num [backoff_delays, next_delay, min_def]

/-- C10: `retry_call` with `tries = 0` skips the `while _tries:` loop body
entirely: the wrapped function is never invoked, nothing is raised, no
sleep happens, and Python's implicit `None` is returned — for every wrapped
function, exception set, clock, jitter, fuel and delay configuration. -/
theorem c10_retry_zero_tries {ε α : Type} (f : Nat → CallResult ε α)
    (isMatch : ε → Bool) (now : Nat → Nat) (startTime : Nat) (jit : Nat → ℚ)
    (fuel : Nat) (delay : ℚ) (maxDelay : Option ℚ) (backoff : ℚ) :
    retry_call f isMatch now startTime jit fuel 0 delay maxDelay backoff
      = ⟨RetryOutcome.value none, 0, []⟩ := by
  unfold retry_call retry_internal_loop
  simp

end Sel4
